import Mathlib

/-!
# gogridfs: a shallow embedding of `gogridfs.go`

The three HTTP handlers (`download`, `thumbnail`, `upload`) and the mirror
writer `toS3` are embedded as functions from their inputs to the sequence of
calls they make on their collaborators (the `http.ResponseWriter`, the mgo
session and GridFS, the imagick wand, the S3 buckets).  What the collaborators
answer is an input of the model (`Env`, `GridFile`, `Wand`, ...).  `Logger`
calls and the wall-clock differences that are only logged are left out: they
are never observed by a caller.  The width of `uint` is an input as well
(`Env.uintSize`), since Go fixes it by the target.
-/

namespace gogridfs

/-! ## Constants -/

def DEFAULT_BUFFER_SIZE : Nat := 1024 * 64
def DEFAULT_COMPRESS_QUALITY : Nat := 50
def DEFAULT_THUMBNAIL_WIDTH : Nat := 200
def METHOD_GET : String := "GET"
def METHOD_POST : String := "POST"
def PARAMETER_FID : String := "fid"
def PARAMETER_UPLOAD : String := "upload"
def HEADER_CONTENT_TYPE : String := "Content-Type"
def HEADER_CONTENT_LENGTH : String := "Content-Length"
def HEADER_CONTENT_MD5 : String := "Content-MD5"
def CONTENT_TYPE_AUDIO_PREFIX : String := "audio"
def CONTENT_TYPE_VIDEO_PREFIX : String := "video"
def CONTENT_TYPE_IMAGE_PREFIX : String := "image"

def StatusOK : Nat := 200
def StatusBadRequest : Nat := 400
def StatusNotFound : Nat := 404
def StatusMethodNotAllowed : Nat := 405
def StatusInternalServerError : Nat := 500

/-- One byte of a payload. -/
abbrev Byte := Fin 256

/-! ## Machine integers -/

/-- The value an `int64` holds after an arithmetic result `i` wraps around. -/
def wrapInt64 (i : Int) : Int := (i + 2 ^ 63) % 2 ^ 64 - 2 ^ 63

/-- The value a `uint` of `bits` bits (32 or 64, by the target the program is
built for) holds after an arithmetic result `n` wraps around. -/
def wrapUint (bits n : Nat) : Nat := n % 2 ^ bits

def maxUint64 : Nat := 2 ^ 64 - 1
def maxInt64 : Int := 2 ^ 63 - 1
def minInt64 : Int := -(2 ^ 63)

/-! ## `strconv` and `strings` -/

/-- The two `strconv` error kinds. -/
inductive NumError where
  | ErrSyntax
  | ErrRange
deriving DecidableEq, Repr

/-- Value of a decimal digit character (`d - '0'`). -/
def digitVal (c : Char) : Nat := c.toNat - 48

/-- The digit loop of `strconv.ParseUint(s, 10, 64)`, from accumulator `n`:
a character that is not a decimal digit is a syntax error with value 0; an
accumulator that would leave the `uint64` range is a range error with the
maximal value, reported at once, before the rest is looked at. -/
def parseUintLoop : List Char → Nat → Nat × Option NumError
  | [], n => (n, none)
  | c :: cs, n =>
    if c.isDigit then
      if n ≥ maxUint64 / 10 + 1 then (maxUint64, some NumError.ErrRange)
      else
        let n10 := n * 10
        let n1 := (n10 + digitVal c) % 2 ^ 64
        if n1 < n10 ∨ n1 > maxUint64 then (maxUint64, some NumError.ErrRange)
        else parseUintLoop cs n1
    else (0, some NumError.ErrSyntax)

/-- Model of `strconv.ParseUint(s, 10, 64)`. -/
def ParseUint (s : List Char) : Nat × Option NumError :=
  match s with
  | [] => (0, some NumError.ErrSyntax)
  | _ => parseUintLoop s 0

/-- The part of `strconv.ParseInt(s, 10, 64)` after the sign is picked off:
unsigned digits, then the range check against `1 << 63`; a range error
returns the nearest `int64` bound, a syntax error 0. -/
def parseIntSigned (neg : Bool) (body : List Char) : Int × Option NumError :=
  match ParseUint body with
  | (_, some NumError.ErrSyntax) => (0, some NumError.ErrSyntax)
  | (un, _) =>
    let cutoff : Nat := 2 ^ 63
    if !neg ∧ un ≥ cutoff then (wrapInt64 ((cutoff - 1 : Nat) : Int), some NumError.ErrRange)
    else if neg ∧ un > cutoff then
      (wrapInt64 (-(wrapInt64 ((cutoff : Nat) : Int))), some NumError.ErrRange)
    else
      let n := wrapInt64 ((un : Nat) : Int)
      (if neg then wrapInt64 (-n) else n, none)

/-- Model of `strconv.ParseInt(s, 10, 64)`. -/
def ParseInt (s : String) : Int × Option NumError :=
  match s.data with
  | [] => (0, some NumError.ErrSyntax)
  | c :: rest => parseIntSigned (c == '-') (if c == '+' ∨ c == '-' then rest else c :: rest)

/-- Model of `strconv.FormatInt(i, 10)`: a minus sign for a negative value,
then the decimal digits. -/
def FormatInt (i : Int) : String := toString i

/-- Model of `strings.HasPrefix`. -/
def HasPrefix (s pre : String) : Bool := pre.data.isPrefixOf s.data

/-! ## Collaborators -/

/-- Go `error` values the handlers compare against, and all the others. -/
inductive Error where
  | ErrNotFound
  | EOF
  | other (msg : String)
deriving DecidableEq, Repr

/-- Result of `url.ParseQuery`: each key with its values. -/
abbrev Values := List (String × List String)

/-- Map indexing `parameters[key]`: the values of `key`, none when it is absent. -/
def Values.index (parameters : Values) (key : String) : List String :=
  (parameters.lookup key).getD []

/-- Result of one `file.Read(buf)`: `data` is `buf[:n]`, `err` the error. -/
structure ReadResult where
  data : List Byte
  err : Option Error
deriving DecidableEq, Repr

/-- A GridFS file opened for reading: its stored attributes and what its
successive `Read` calls return. -/
structure GridFile where
  md5 : String
  contentType : String
  size : Int
  reads : List ReadResult
deriving DecidableEq, Repr

/-- A GridFS file created for writing: what `Write(data)` returns, `(n, err)`. -/
structure GridWriter where
  write : List Byte → Int × Option Error

/-- A wand after a successful `ReadImageBlob`. -/
structure Image where
  width : Nat
  height : Nat
  thumbnailImage : Nat → Nat → Option Error
  setImageCompressionQuality : Nat → Option Error
  imageBlob : Nat → Nat → List Byte

/-- The uploaded multipart file: result of `ioutil.ReadAll`. -/
structure UploadedFile where
  readAll : Except Error (List Byte)

/-- The parsed multipart form: result of `r.FormFile(key)`. -/
structure MultipartForm where
  formFile : String → Except Error UploadedFile

structure Request where
  method : String
  uid : String
  query : Except Error Values
  multipartForm : Option MultipartForm

inductive Bucket where
  | ImageBucket
  | AudioBucket
  | VideoBucket
deriving DecidableEq, Repr

inductive ACL where
  | Private
  | PublicRead
  | PublicReadWrite
deriving DecidableEq, Repr

/-- What the process-wide handles answer. -/
structure Env where
  now : Int
  debug : Bool
  uintSize : Nat
  gridOpen : String → Option GridFile × Option Error
  gridCreate : String → Option GridWriter × Option Error
  detectContentType : List Byte → String
  readImageBlob : List Byte → Except Error Image
  bucketPut : Bucket → String → List Byte → String → ACL → Option Error

/-- A call made on a collaborator. `Log` keeps the leading literal of the line. -/
inductive Event where
  | Log (line : String)
  | SetHeader (key value : String)
  | WriteHeader (code : Nat)
  | Write (data : List Byte)
  | SessionCopy
  | SessionClose
  | GridOpen (name : String)
  | GridCreate (name : String)
  | SetName (name : String)
  | SetContentType (contentType : String)
  | SetMeta (uid : String)
  | GridWrite (data : List Byte)
  | GridFileClose
  | FormFileClose
  | GoToS3 (name contentType : String) (data : List Byte)
  | NewMagickWand
  | WandDestroy
  | ReadImageBlob (data : List Byte)
  | ThumbnailImage (cols rows : Nat)
  | SetImageCompressionQuality (quality : Nat)
  | GetImageBlob
  | BucketPut (bucket : Bucket) (name : String) (data : List Byte) (contentType : String) (perm : ACL)
deriving DecidableEq, Repr

/-- How a handler run ends: it returns, a run-time panic unwinds it, or the
read script of the opened file ends before the read loop does. -/
inductive Completion where
  | returned
  | panicked
  | unscripted
deriving DecidableEq, Repr

structure Outcome where
  events : List Event
  completion : Completion
deriving DecidableEq, Repr

/-- How the read loop `for { n, err = file.Read(buf); ... }` ends. -/
inductive LoopEnd where
  | broke (err : Error)
  | sliceOutOfRange
  | unscripted
deriving DecidableEq, Repr

/-- The read loop shared by `download` and `thumbnail`: the chunks `buf[:n]`
handed on, in order, until a read with `n == 0 && err != nil` breaks it. -/
def readLoop : List ReadResult → List (List Byte) × LoopEnd
  | [] => ([], LoopEnd.unscripted)
  | r :: rs =>
    match r.data.length, r.err with
    | 0, some e => ([], LoopEnd.broke e)
    | n, _ =>
      if n > DEFAULT_BUFFER_SIZE then ([], LoopEnd.sliceOutOfRange)
      else ((readLoop rs).1.cons r.data, (readLoop rs).2)

/-- Bytes of a string of ASCII characters. -/
def asciiBytes (s : String) : List Byte := s.data.map fun c => Fin.ofNat c.toNat

/-- Model of `json.Marshal(UploadResult{Fid: fid, Result: result})` for
fields that need no escaping (a `FormatInt` output and `OK`). -/
def jsonMarshalUploadResult (fid result : String) : List Byte :=
  asciiBytes ("\x7b\"fid\":\"" ++ fid ++ "\",\"result\":\"" ++ result ++ "\"\x7d")

/-! ## The handlers

Each handler is cut into stages at the points where it acquires a handle;
`Outcome.after` puts the calls made so far in front of what follows and
`Outcome.deferred` runs a `defer`red call when what follows returns or panics.
-/

/-- A return after the calls `events`. -/
def returned (events : List Event) : Outcome := ⟨events, Completion.returned⟩

/-- A run-time panic after the calls `events`. -/
def panicked (events : List Event) : Outcome := ⟨events, Completion.panicked⟩

/-- The calls `events`, then the run `o`. -/
def Outcome.after (events : List Event) (o : Outcome) : Outcome :=
  ⟨events ++ o.events, o.completion⟩

/-- The run `o` with the calls `calls` deferred: they are made when `o`
returns or panics. -/
def Outcome.deferred (calls : List Event) (o : Outcome) : Outcome :=
  match o.completion with
  | Completion.unscripted => o
  | _ => ⟨o.events ++ calls, o.completion⟩

/-- Lines 133-163 of `download`: headers, read loop, and the last stretch,
the only one where `file.Close` and `session.Close` are deferred. -/
def downloadStream (env : Env) (file : GridFile) : Outcome :=
  let headers := [Event.SetHeader HEADER_CONTENT_MD5 file.md5]
    ++ (if file.contentType ≠ "" then [Event.SetHeader HEADER_CONTENT_TYPE file.contentType] else [])
    ++ [Event.SetHeader HEADER_CONTENT_LENGTH (FormatInt file.size)]
  let streamed := headers ++ (readLoop file.reads).1.map Event.Write
  match (readLoop file.reads).2 with
  | LoopEnd.unscripted => ⟨streamed, Completion.unscripted⟩
  | LoopEnd.sliceOutOfRange => panicked streamed
  | LoopEnd.broke err =>
    if err ≠ Error.EOF then
      returned (streamed
        ++ [Event.Log "[ERROR] error when read file", Event.WriteHeader StatusInternalServerError])
    else
      Outcome.deferred [Event.SessionClose, Event.GridFileClose]
        (returned (streamed ++ (if env.debug then [Event.Log "[INFO] download"] else [])))

/-- Lines 118-132 of `download`: session copy and open. -/
def downloadOpen (env : Env) (name : String) : Outcome :=
  Outcome.after [Event.SessionCopy, Event.GridOpen name]
    (if (env.gridOpen name).2 ≠ none ∧ (env.gridOpen name).2 ≠ some Error.ErrNotFound then
      returned [Event.Log "[ERROR] error when open file", Event.WriteHeader StatusInternalServerError]
    else
      match (env.gridOpen name).1 with
      | none => returned [Event.Log "[WARN] file not found for given fid", Event.WriteHeader StatusNotFound]
      | some file => downloadStream env file)

/-- The handler `download` (lines 95-163). -/
def download (env : Env) (r : Request) : Outcome :=
  if r.method ≠ METHOD_GET then
    returned [Event.Log "[WARN] unsupport method", Event.WriteHeader StatusMethodNotAllowed]
  else
    match r.query with
    | Except.error _ =>
      returned [Event.Log "[ERROR] error when parse parameter", Event.WriteHeader StatusBadRequest]
    | Except.ok parameters =>
      if parameters.length = 0 then
        returned [Event.Log "[ERROR] invalid query parameter", Event.WriteHeader StatusBadRequest]
      else
        match parameters.index PARAMETER_FID with
        | [] => panicked []
        | name :: _ => downloadOpen env name

/-- The height argument of `mw.ThumbnailImage` (line 245), in `uint` arithmetic. -/
def thumbnailRows (uintSize orginWidth orginHeight : Nat) : Nat :=
  wrapUint uintSize (orginHeight * DEFAULT_THUMBNAIL_WIDTH) / orginWidth

/-- Lines 229-264 of `thumbnail`: the wand, with `mw.Destroy` deferred. -/
def thumbnailWand (env : Env) (data : List Byte) : Outcome :=
  Outcome.after [Event.NewMagickWand] <| Outcome.deferred [Event.WandDestroy] <|
    if data.length = 0 then
      returned [Event.Log "[ERROR] empty data to make thumbnail", Event.WriteHeader StatusInternalServerError]
    else
      match env.readImageBlob data with
      | Except.error _ =>
        returned [Event.ReadImageBlob data, Event.Log "[ERROR] error when read file",
          Event.WriteHeader StatusInternalServerError]
      | Except.ok image =>
        Outcome.after [Event.ReadImageBlob data] <|
          if image.width = 0 then panicked []
          else
            Outcome.after
              [Event.ThumbnailImage DEFAULT_THUMBNAIL_WIDTH (thumbnailRows env.uintSize image.width image.height)] <|
            if image.thumbnailImage DEFAULT_THUMBNAIL_WIDTH
                (thumbnailRows env.uintSize image.width image.height) ≠ none then
              returned [Event.Log "[ERROR] error when make thumbnail",
                Event.WriteHeader StatusInternalServerError]
            else
              Outcome.after [Event.SetImageCompressionQuality DEFAULT_COMPRESS_QUALITY] <|
              if image.setImageCompressionQuality DEFAULT_COMPRESS_QUALITY ≠ none then
                returned [Event.Log "[ERROR] error when compress", Event.WriteHeader StatusInternalServerError]
              else
                let thumbnailed := image.imageBlob DEFAULT_THUMBNAIL_WIDTH
                  (thumbnailRows env.uintSize image.width image.height)
                returned ([Event.GetImageBlob,
                  Event.SetHeader HEADER_CONTENT_LENGTH (FormatInt (thumbnailed.length : Nat)),
                  Event.Write thumbnailed] ++ (if env.debug then [Event.Log "[INFO] thumbnail"] else []))

/-- Lines 205-228 of `thumbnail`: `file.Close` deferred, the read loop into
`data`, the status 500 on a read error (no return follows it), the headers. -/
def thumbnailRead (env : Env) (file : GridFile) : Outcome :=
  Outcome.deferred [Event.GridFileClose] <|
    match (readLoop file.reads).2 with
    | LoopEnd.unscripted => ⟨[], Completion.unscripted⟩
    | LoopEnd.sliceOutOfRange => panicked []
    | LoopEnd.broke err =>
      Outcome.after
        ((if err ≠ Error.EOF then
            [Event.Log "[ERROR] error when read file", Event.WriteHeader StatusInternalServerError] else [])
          ++ [Event.SetHeader HEADER_CONTENT_MD5 file.md5]
          ++ (if file.contentType ≠ "" then [Event.SetHeader HEADER_CONTENT_TYPE file.contentType]
              else []))
        (thumbnailWand env (readLoop file.reads).1.flatten)

/-- Lines 189-204 of `thumbnail`: session copy with `session.Close` deferred, open. -/
def thumbnailOpen (env : Env) (name : String) : Outcome :=
  Outcome.after [Event.SessionCopy] <| Outcome.deferred [Event.SessionClose] <|
    Outcome.after [Event.GridOpen name] <|
      if (env.gridOpen name).2 ≠ none ∧ (env.gridOpen name).2 ≠ some Error.ErrNotFound then
        returned [Event.Log "[ERROR] error when open file", Event.WriteHeader StatusInternalServerError]
      else
        match (env.gridOpen name).1 with
        | none => returned [Event.Log "[WARN] file not found for given fid", Event.WriteHeader StatusNotFound]
        | some file => thumbnailRead env file

/-- The handler `thumbnail` (lines 166-264). -/
def thumbnail (env : Env) (r : Request) : Outcome :=
  if r.method ≠ METHOD_GET then
    returned [Event.Log "[WARN] unsupport method", Event.WriteHeader StatusMethodNotAllowed]
  else
    match r.query with
    | Except.error _ =>
      returned [Event.Log "[ERROR] error when parse parameters", Event.WriteHeader StatusBadRequest]
    | Except.ok parameters =>
      if parameters.length = 0 then
        returned [Event.Log "[ERROR] invalid parameters", Event.WriteHeader StatusBadRequest]
      else
        match parameters.index PARAMETER_FID with
        | [] => panicked []
        | name :: _ => thumbnailOpen env name

/-- The owner tag `parsedUid` of `upload` (lines 276-280): the value
`strconv.ParseInt` returns, its error dropped; 0 for an empty header. -/
def parsedUid (uid : String) : Int :=
  if uid ≠ "" then (ParseInt uid).1 else 0

/-- The key `name` of `upload` (lines 302-304), in `int64` arithmetic. -/
def assignName (now : Int) (uid : String) (data : List Byte) : String :=
  FormatInt (wrapInt64 (wrapInt64 (now + parsedUid uid) + (data.length : Nat)))

/-- Lines 321-344 of `upload`: attributes, write, response; `gridFile.Close`
is deferred once the write returned without error. -/
def uploadWrite (env : Env) (uid name contentType : String) (data : List Byte)
    (gridFile : GridWriter) : Outcome :=
  Outcome.after [Event.SetName name, Event.SetContentType contentType, Event.SetMeta uid, Event.GridWrite data] <|
    if (gridFile.write data).2 ≠ none then
      returned [Event.Log "[ERROR] error when write to chunk", Event.WriteHeader StatusInternalServerError]
    else
      Outcome.deferred [Event.GridFileClose] <|
        if (gridFile.write data).1 ≠ ((data.length : Nat) : Int) then
          returned [Event.Log "[ERROR] write to chunk incompletely",
            Event.WriteHeader StatusInternalServerError]
        else
          returned ((if env.debug then [Event.Log "[INFO] upload"] else [])
            ++ [Event.WriteHeader StatusOK, Event.Write (jsonMarshalUploadResult name "OK")])

/-- Lines 301-320 of `upload`: key, mirror goroutine, session copy (closed
nowhere), create. -/
def uploadData (env : Env) (uid : String) (data : List Byte) : Outcome :=
  let contentType := env.detectContentType data
  let name := assignName env.now uid data
  Outcome.after [Event.GoToS3 name contentType data, Event.SessionCopy, Event.GridCreate name] <|
    if (env.gridCreate name).2 ≠ none then
      returned [Event.Log "[ERROR] error when create file", Event.WriteHeader StatusInternalServerError]
    else
      match (env.gridCreate name).1 with
      | none =>
        returned [Event.Log "[ERROR] failed to create file to gridfs",
          Event.WriteHeader StatusInternalServerError]
      | some gridFile => uploadWrite env uid name contentType data gridFile

/-- The handler `upload` (lines 267-344); the form file's `Close` is deferred. -/
def upload (env : Env) (r : Request) : Outcome :=
  if r.method ≠ METHOD_POST then
    returned [Event.Log "[WARN] unsupport method", Event.WriteHeader StatusMethodNotAllowed]
  else
    match r.multipartForm with
    | none => returned [Event.Log "[WARN] empty multipart form", Event.WriteHeader StatusBadRequest]
    | some form =>
      match form.formFile PARAMETER_UPLOAD with
      | Except.error _ =>
        returned [Event.Log "[ERROR] error when parse multipart form", Event.WriteHeader StatusBadRequest]
      | Except.ok file =>
        Outcome.deferred [Event.FormFileClose] <|
          match file.readAll with
          | Except.error _ =>
            returned [Event.Log "[ERROR] error when read uploaded file",
              Event.WriteHeader StatusInternalServerError]
          | Except.ok data => uploadData env r.uid data

/-- The mirror writer `toS3` (lines 346-375), run as a goroutine of its own. -/
def toS3 (env : Env) (name contentType : String) (data : List Byte) : List Event :=
  let logged (err : Option Error) : List Event :=
    if err ≠ none then [Event.Log "[ERROR] error when upload to s3"] else [Event.Log "[INFO] upload to s3"]
  if HasPrefix contentType CONTENT_TYPE_AUDIO_PREFIX then
    Event.BucketPut Bucket.AudioBucket name data contentType ACL.PublicRead
      :: logged (env.bucketPut Bucket.AudioBucket name data contentType ACL.PublicRead)
  else if HasPrefix contentType CONTENT_TYPE_VIDEO_PREFIX then
    Event.BucketPut Bucket.VideoBucket name data contentType ACL.PublicRead
      :: logged (env.bucketPut Bucket.VideoBucket name data contentType ACL.PublicRead)
  else if HasPrefix contentType CONTENT_TYPE_IMAGE_PREFIX then
    Event.BucketPut Bucket.ImageBucket name data contentType ACL.PublicRead
      :: logged (env.bucketPut Bucket.ImageBucket name data contentType ACL.PublicRead)
  else [Event.Log "[WARN] ignore due to invalid type"]

/-! ## What the client sees: `http.ResponseWriter` -/

structure Response where
  status : Nat
  header : List (String × String)
  body : List Byte
deriving DecidableEq, Repr

/-- State of a response writer: the header map, the status line and header
sent (once `WriteHeader` or the first `Write` happened), the body so far. -/
structure Writer where
  header : List (String × String)
  sent : Option (Nat × List (String × String))
  body : List Byte
deriving DecidableEq, Repr

/-- Whether a character may stand in a header key (`validHeaderFieldByte`):
a letter, a digit, or one of the fifteen token signs. -/
def validHeaderFieldChar (c : Char) : Bool :=
  c.isAlphanum || [33, 35, 36, 37, 38, 39, 42, 43, 45, 46, 94, 95, 96, 124, 126].contains c.toNat

/-- The letters of a canonical header key: upper case at the start and after
a hyphen, lower case elsewhere. -/
def canonicalLetters : Bool → List Char → List Char
  | _, [] => []
  | upper, c :: cs =>
    (if upper then c.toUpper else c.toLower) :: canonicalLetters (c == '-') cs

/-- Model of `textproto.CanonicalMIMEHeaderKey`: a key with a character that
may not stand in a header key is left as it is. -/
def canonicalMIMEHeaderKey (key : String) : String :=
  if key.data.all validHeaderFieldChar then ⟨canonicalLetters true key.data⟩ else key

/-- Effect of `w.Header().Set(key, value)` on the header map: the value is
kept under the canonical form of the key. -/
def setHeader (header : List (String × String)) (key value : String) : List (String × String) :=
  header.filter (fun kv => kv.1 ≠ canonicalMIMEHeaderKey key)
    ++ [(canonicalMIMEHeaderKey key, value)]

/-- Effect of one call on the writer: only the first `WriteHeader` counts, a
`Write` before it sends status 200, a header set after it is not sent. -/
def Writer.step (w : Writer) : Event → Writer
  | Event.SetHeader key value => { w with header := setHeader w.header key value }
  | Event.WriteHeader code =>
    match w.sent with
    | none => { w with sent := some (code, w.header) }
    | some _ => w
  | Event.Write data =>
    match w.sent with
    | none => { w with sent := some (StatusOK, w.header), body := w.body ++ data }
    | some _ => { w with body := w.body ++ data }
  | _ => w

/-- The response of a handler that returned after `events`; status 200 is
sent on return when nothing was sent before. -/
def response (events : List Event) : Response :=
  let w := events.foldl Writer.step ⟨[], none, []⟩
  match w.sent with
  | some (code, header) => ⟨code, header, w.body⟩
  | none => ⟨StatusOK, w.header, w.body⟩

/-- Session copies left open by a run: `Copy` calls minus `Close` calls. -/
def openSessions (events : List Event) : Int :=
  (events.count Event.SessionCopy : Nat) - (events.count Event.SessionClose : Nat)

/-- The calls made on the response writer, in order. -/
def writerCalls (events : List Event) : List Event :=
  events.filter fun e =>
    match e with
    | Event.SetHeader _ _ => true
    | Event.WriteHeader _ => true
    | Event.Write _ => true
    | _ => false

/-- The puts made on the buckets, in order. -/
def bucketPuts (events : List Event) : List Event :=
  events.filter fun e =>
    match e with
    | Event.BucketPut _ _ _ _ _ => true
    | _ => false

/-- The `ThumbnailImage` calls made on the wand, in order. -/
def resizes (events : List Event) : List Event :=
  events.filter fun e =>
    match e with
    | Event.ThumbnailImage _ _ => true
    | _ => false

/-! ## The primary store between `upload` and `download` -/

/-- The bytes a run wrote to its grid file, in order. -/
def gridWritten (events : List Event) : List Byte :=
  (events.filterMap fun e =>
    match e with
    | Event.GridWrite data => some data
    | _ => none).flatten

/-- The keys a run created grid files under, in order. -/
def gridCreated (events : List Event) : List String :=
  events.filterMap fun e =>
    match e with
    | Event.GridCreate name => some name
    | _ => none

/-- The file GridFS opens for a stored object whose bytes it hands out as
`chunks`: `Size()` is the number of bytes stored, each `Read` gives the next
chunk, and the read after the last chunk gives `io.EOF`. -/
def storedFile (md5 contentType : String) (chunks : List (List Byte)) : GridFile :=
  ⟨md5, contentType, ((chunks.flatten.length : Nat) : Int),
    chunks.map (fun c => (⟨c, none⟩ : ReadResult)) ++ [⟨[], some Error.EOF⟩]⟩

/-! ## MIME type strings -/

/-- The registered top-level media types. -/
def topLevelTypes : List String :=
  ["application", "audio", "example", "font", "haptics", "image", "message", "model",
    "multipart", "text", "video"]

/-- Whether a string is a MIME type string: a registered top-level type, a
slash, and the rest (subtype and parameters). Every result of
`http.DetectContentType` is one. -/
def isMIMEType (m : String) : Bool :=
  topLevelTypes.any fun t => HasPrefix m (t ++ "/")

/-! ## The owner tag in words -/

/-- Whether a header value starts with a minus sign, and what follows its
optional sign. -/
def unsign (u : String) : Bool × List Char :=
  match u.data with
  | '-' :: body => (true, body)
  | '+' :: body => (false, body)
  | body => (false, body)

/-- The number a run of decimal digits denotes. -/
def decimalValue (digits : List Char) : Nat :=
  digits.foldl (fun v c => 10 * v + digitVal c) 0

/-- The nearest `int64` to an integer. -/
def clampInt64 (i : Int) : Int :=
  if i < minInt64 then minInt64 else if i > maxInt64 then maxInt64 else i

/-- The owner tag of a `uid` header value, in words: for an optional sign
followed by one or more decimal digits, the integer denoted, clamped to the
`int64` range; for anything else 0, unless the digits in front of the first
character that is no digit already exceed the `uint64` range, in which case
it is the `int64` bound on the side of the sign. -/
def ownerTag (u : String) : Int :=
  let negative := (unsign u).1
  let body := (unsign u).2
  if body ≠ [] ∧ body.all Char.isDigit then
    clampInt64 (if negative then -(decimalValue body : Int) else (decimalValue body : Int))
  else if decimalValue (body.takeWhile Char.isDigit) > maxUint64 then
    (if negative then minInt64 else maxInt64)
  else 0

/-- The owner tag as the claim on key assignment words it: the integer value
of a well-formed decimal `int64`, and 0 for every other header value. -/
def claimedTag (u : String) : Int :=
  let negative := (unsign u).1
  let body := (unsign u).2
  let value : Int := if negative then -(decimalValue body : Int) else (decimalValue body : Int)
  if body ≠ [] ∧ body.all Char.isDigit ∧ minInt64 ≤ value ∧ value ≤ maxInt64 then value else 0

/-- The ways the calls `a` of a handler and the calls `b` of a goroutine it
started can follow one another: `m` keeps the order of each. -/
inductive Interleaving : List Event → List Event → List Event → Prop where
  | nil : Interleaving [] [] []
  | left (e : Event) {a b m : List Event} : Interleaving a b m → Interleaving (e :: a) b (e :: m)
  | right (e : Event) {a b m : List Event} : Interleaving a b m → Interleaving a (e :: b) (e :: m)

/-! ## Sample inputs -/

/-- An image of 4 by 2 pixels whose wand calls all succeed. -/
def smallImage : Image where
  width := 4
  height := 2
  thumbnailImage := fun _ _ => none
  setImageCompressionQuality := fun _ => none
  imageBlob := fun _ _ => [9]

/-- An image one pixel wide and 21474837 pixels high: its height times 200
leaves the range of a 32-bit `uint`. -/
def tallImage : Image where
  width := 1
  height := 21474837
  thumbnailImage := fun _ _ => none
  setImageCompressionQuality := fun _ => none
  imageBlob := fun _ _ => [9]

/-- A store holding `abc` under `1000000045`, an object under `7` whose
second read fails, an object under `8` decoding to `tallImage`, an object
under `9` decoding to `smallImage`, and nothing else. -/
def sampleEnv : Env where
  now := 1000000000
  debug := false
  uintSize := 64
  gridOpen := fun k =>
    if k = "1000000045" then
      (some (storedFile "900150983cd24fb0d6963f7d28e17f72" "text/plain; charset=utf-8"
        [[97, 98], [99]]), none)
    else if k = "7" then
      (some ⟨"", "", 4, [⟨[1, 2], none⟩, ⟨[], some (Error.other "unexpected EOF")⟩]⟩, none)
    else if k = "8" then (some ⟨"", "", 1, [⟨[3], none⟩, ⟨[], some Error.EOF⟩]⟩, none)
    else if k = "9" then (some ⟨"", "", 2, [⟨[1, 2], none⟩, ⟨[], some Error.EOF⟩]⟩, none)
    else (none, some Error.ErrNotFound)
  gridCreate := fun _ => (some ⟨fun data => ((data.length : Nat), none)⟩, none)
  detectContentType := fun _ => "text/plain; charset=utf-8"
  readImageBlob := fun data =>
    if data = [1, 2] then Except.ok smallImage
    else if data = [3] then Except.ok tallImage
    else Except.error (Error.other "no decode delegate")
  bucketPut := fun _ _ _ _ _ => none

/-- The same store when every open fails with an error other than not-found. -/
def brokenEnv : Env :=
  { sampleEnv with gridOpen := fun _ => (none, some (Error.other "no reachable servers")) }

/-- A form holding one uploaded file with the given bytes. -/
def formOf (data : List Byte) : MultipartForm where
  formFile := fun _ => Except.ok ⟨Except.ok data⟩

/-- POST of the payload `abc` with `uid: 42`. -/
def sampleUpload : Request := ⟨"POST", "42", Except.ok [], some (formOf [97, 98, 99])⟩

/-- GET with the query `fid=<key>`. -/
def getFid (key : String) : Request := ⟨"GET", "", Except.ok [("fid", [key])], none⟩

/-- GET with the query `uid=7`: parameters, but no `fid`. -/
def getWithoutFid : Request := ⟨"GET", "", Except.ok [("uid", ["7"])], none⟩

/-- The same store behind a program built for a target whose `uint` has 32 bits. -/
def narrowEnv : Env := { sampleEnv with uintSize := 32 }

/-- The store at epoch second 0. -/
def zeroEnv : Env := { sampleEnv with now := 0 }

/-- POST of an empty payload with the given `uid` header. -/
def emptyUpload (uid : String) : Request := ⟨"POST", uid, Except.ok [], some (formOf [])⟩

/-! ## Theorems -/

/-- A key whose values are indexed with success belongs to a query that is not empty. -/
theorem Values.index_cons_length {parameters : Values} {key name : String} {rest : List String}
    (h : parameters.index key = name :: rest) : parameters.length ≠ 0 := by
  intro h0
  have : parameters = [] := List.length_eq_zero.mp h0
  subst this
  simp [Values.index] at h

/-- C4. A GET `download` with an `fid` key whose open fails: for not-found
(no file, `ErrNotFound`) the status is 404, for any other error it is 500;
the handler returns, and its only call on the response writer is that
`WriteHeader`, so no header and no body byte is sent before or after it. -/
theorem download_open_outcomes (env : Env) (r : Request) (parameters : Values)
    (name : String) (rest : List String) (file : Option GridFile) (e : Error)
    (hm : r.method = METHOD_GET) (hq : r.query = Except.ok parameters)
    (hfid : parameters.index PARAMETER_FID = name :: rest)
    (hopen : env.gridOpen name = (file, some e))
    (hnil : e = Error.ErrNotFound → file = none) :
    (download env r).completion = Completion.returned ∧
    writerCalls (download env r).events
      = [Event.WriteHeader
          (if e = Error.ErrNotFound then StatusNotFound else StatusInternalServerError)] ∧
    response (download env r).events
      = ⟨if e = Error.ErrNotFound then StatusNotFound else StatusInternalServerError, [], []⟩ := by
  have hlen := Values.index_cons_length hfid
  by_cases he : e = Error.ErrNotFound
  · have hf := hnil he
    subst he hf
    simp [download, downloadOpen, Outcome.after, returned, hm, hq, hlen, hfid, hopen,
      writerCalls, response, Writer.step]
  · simp [download, downloadOpen, Outcome.after, returned, hm, hq, hlen, hfid, hopen, he,
      writerCalls, response, Writer.step]

/-- C4 at an unknown key, and at a store whose open fails. -/
theorem download_open_outcomes_witness :
    response (download sampleEnv (getFid "12345")).events = ⟨404, [], []⟩ ∧
    response (download brokenEnv (getFid "12345")).events = ⟨500, [], []⟩ :=
  ⟨(download_open_outcomes sampleEnv (getFid "12345") [("fid", ["12345"])] "12345" [] none
      Error.ErrNotFound rfl rfl rfl rfl (fun _ => rfl)).2.2,
   (download_open_outcomes brokenEnv (getFid "12345") [("fid", ["12345"])] "12345" [] none
      (Error.other "no reachable servers") rfl rfl rfl rfl (fun h => nomatch h)).2.2⟩

/-! ### `strconv` -/

/-- A decimal digit is worth at most nine. -/
theorem isDigit_digitVal {c : Char} (h : c.isDigit = true) : digitVal c ≤ 9 := by
  simp only [Char.isDigit, Bool.and_eq_true, decide_eq_true_eq] at h
  have h2 : c.val.toNat ≤ 57 := h.2
  unfold digitVal Char.toNat
  omega

/-- The accumulator of the digit loop started from `n`. -/
theorem foldl_digits_ge (ds : List Char) :
    ∀ n : Nat, n ≤ ds.foldl (fun v c => 10 * v + digitVal c) n := by
  induction ds with
  | nil => intro n; exact le_refl _
  | cons c cs ih =>
    intro n
    simp only [List.foldl_cons]
    exact le_trans (by omega) (ih _)

/-- What the digit loop of `ParseUint` returns, in terms of the run of digits
in front of the first character that is no digit. -/
theorem parseUintLoop_eq (cs : List Char) :
    ∀ n : Nat, n ≤ maxUint64 →
      parseUintLoop cs n =
        if (cs.takeWhile Char.isDigit).foldl (fun v c => 10 * v + digitVal c) n > maxUint64 then
          (maxUint64, some NumError.ErrRange)
        else if cs.all Char.isDigit then
          ((cs.takeWhile Char.isDigit).foldl (fun v c => 10 * v + digitVal c) n, none)
        else (0, some NumError.ErrSyntax) := by
  induction cs with
  | nil =>
    intro n hn
    simp [parseUintLoop, Nat.not_lt.mpr hn]
  | cons c cs ih =>
    intro n hn
    unfold maxUint64 at hn
    by_cases hc : c.isDigit = true
    · have hd := isDigit_digitVal hc
      have hge := foldl_digits_ge (cs.takeWhile Char.isDigit) (10 * n + digitVal c)
      simp only [parseUintLoop, hc, if_true, List.takeWhile_cons, List.foldl_cons, List.all_cons,
        Bool.true_and]
      by_cases h1 : n ≥ maxUint64 / 10 + 1
      · have : (cs.takeWhile Char.isDigit).foldl (fun v c => 10 * v + digitVal c)
            (10 * n + digitVal c) > maxUint64 := by
          unfold maxUint64 at h1 ⊢; omega
        simp [h1, this]
      · simp only [h1, if_false]
        by_cases h2 : n * 10 + digitVal c ≥ 2 ^ 64
        · have h3 : (n * 10 + digitVal c) % 2 ^ 64 < n * 10 := by
            unfold maxUint64 at h1; omega
          have : (cs.takeWhile Char.isDigit).foldl (fun v c => 10 * v + digitVal c)
              (10 * n + digitVal c) > maxUint64 := by
            unfold maxUint64; omega
          rw [if_pos (Or.inl h3), if_pos this]
        · have h3 : (n * 10 + digitVal c) % 2 ^ 64 = 10 * n + digitVal c := by omega
          have h4 : ¬ (10 * n + digitVal c < n * 10 ∨ 10 * n + digitVal c > maxUint64) := by
            unfold maxUint64; omega
          rw [h3, if_neg h4]
          exact ih _ (by unfold maxUint64; omega)
    · have hc' : c.isDigit = false := by simpa using hc
      simp [parseUintLoop, hc', Nat.not_lt.mpr (show n ≤ maxUint64 from hn)]

/-- A run of digits is its own leading run of digits. -/
theorem takeWhile_of_all {cs : List Char} (h : cs.all Char.isDigit = true) :
    cs.takeWhile Char.isDigit = cs := by
  induction cs with
  | nil => rfl
  | cons c cs ih =>
    simp only [List.all_cons, Bool.and_eq_true] at h
    simp [List.takeWhile_cons, h.1, ih h.2]

/-- The value `ParseInt` returns after the sign, in the words of `ownerTag`. -/
theorem parseIntSigned_value (neg : Bool) (body : List Char) :
    (parseIntSigned neg body).1 =
      if body ≠ [] ∧ body.all Char.isDigit then
        clampInt64 (if neg then -(decimalValue body : Int) else (decimalValue body : Int))
      else if decimalValue (body.takeWhile Char.isDigit) > maxUint64 then
        (if neg then minInt64 else maxInt64)
      else 0 := by
  cases body with
  | nil => simp [parseIntSigned, ParseUint, decimalValue]
  | cons c cs =>
    have hP : ParseUint (c :: cs) = parseUintLoop (c :: cs) 0 := rfl
    have hloop := parseUintLoop_eq (c :: cs) 0 (Nat.zero_le _)
    unfold parseIntSigned
    rw [hP, hloop]
    have hne : (c :: cs) ≠ [] := List.cons_ne_nil _ _
    simp only [ne_eq, hne, not_false_eq_true, true_and]
    change _ = if _ then _ else
      if ((c :: cs).takeWhile Char.isDigit).foldl (fun v c => 10 * v + digitVal c) 0 > maxUint64
        then _ else _
    by_cases hV : ((c :: cs).takeWhile Char.isDigit).foldl (fun v c => 10 * v + digitVal c) 0
        > maxUint64
    · rw [if_pos hV]
      by_cases hall : (c :: cs).all Char.isDigit = true
      · have hv : decimalValue (c :: cs) > maxUint64 := by
          have := takeWhile_of_all hall
          rw [this] at hV; exact hV
        rw [if_pos hall]
        cases neg <;>
          simp [clampInt64, wrapInt64, minInt64, maxInt64, maxUint64] <;>
          (unfold maxUint64 at hv; omega)
      · rw [if_neg hall, if_pos hV]
        cases neg <;> simp [wrapInt64, minInt64, maxInt64, maxUint64]
    · rw [if_neg hV]
      by_cases hall : (c :: cs).all Char.isDigit = true
      · rw [if_pos hall, if_pos hall, takeWhile_of_all hall]
        have hv : decimalValue (c :: cs) ≤ maxUint64 := by
          have := takeWhile_of_all hall
          rw [this] at hV; exact Nat.not_lt.mp hV
        have hfold : List.foldl (fun v c => 10 * v + digitVal c) 0 (c :: cs)
            = decimalValue (c :: cs) := rfl
        rw [hfold]
        generalize decimalValue (c :: cs) = v at hv
        unfold maxUint64 at hv
        simp only []
        cases neg
        · by_cases h1 : 9223372036854775808 ≤ v
          · simp [h1, clampInt64, wrapInt64, minInt64, maxInt64]; omega
          · simp [h1, clampInt64, wrapInt64, minInt64, maxInt64]
            split_ifs <;> omega
        · by_cases h1 : 9223372036854775808 < v
          · simp [h1, clampInt64, wrapInt64, minInt64, maxInt64]
          · simp [h1, clampInt64, wrapInt64, minInt64, maxInt64]
            split_ifs <;> omega
      · rw [if_neg hall, if_neg hall, if_neg hV]

/-- The string without characters is the empty string. -/
theorem data_eq_nil {u : String} (h : u.data = []) : u = "" := by
  cases u; simp_all

/-- The owner tag `upload` parses is the owner tag in words. -/
theorem parsedUid_eq_ownerTag (u : String) : parsedUid u = ownerTag u := by
  rcases hdata : u.data with _ | ⟨c, rest⟩
  · have hu := data_eq_nil hdata
    subst hu
    decide
  · have hne : u ≠ "" := by
      intro h; rw [h] at hdata; cases hdata
    have hparse : parsedUid u
        = (parseIntSigned (c == '-') (if c == '+' ∨ c == '-' then rest else c :: rest)).1 := by
      simp [parsedUid, hne, ParseInt, hdata]
    have hsign : unsign u = (c == '-', if c == '+' ∨ c == '-' then rest else c :: rest) := by
      unfold unsign
      rw [hdata]
      by_cases h1 : c = '-'
      · subst h1; rfl
      · by_cases h2 : c = '+'
        · subst h2; rfl
        · split
          · rename_i heq; cases heq; exact absurd rfl h1
          · rename_i heq; cases heq; exact absurd rfl h2
          · simp [h1, h2]
    rw [hparse, parseIntSigned_value]
    unfold ownerTag
    rw [hsign]

/-! ### `FormatInt` is one-to-one -/

/-- The character of a digit reads back as the digit and is one of `0` to `9`. -/
theorem digitChar_spec : ∀ m : Nat, m < 10 →
    digitVal (Nat.digitChar m) = m ∧
      48 ≤ (Nat.digitChar m).toNat ∧ (Nat.digitChar m).toNat ≤ 57 := by
  decide

/-- Reading back what `Nat.toDigitsCore` puts in front of its accumulator. -/
theorem toDigitsCore_readback (fuel : Nat) : ∀ (n : Nat) (acc : List Char), n < fuel →
    ∃ ds : List Char, Nat.toDigitsCore 10 fuel n acc = ds ++ acc ∧ decimalValue ds = n ∧
      ∀ c ∈ ds, 48 ≤ c.toNat ∧ c.toNat ≤ 57 := by
  induction fuel with
  | zero => intro n acc h; omega
  | succ fuel ih =>
    intro n acc hn
    have hd := digitChar_spec (n % 10) (Nat.mod_lt _ (by decide))
    unfold Nat.toDigitsCore
    by_cases h0 : n / 10 = 0
    · refine ⟨[Nat.digitChar (n % 10)], by simp [h0], ?_, ?_⟩
      · simp only [decimalValue, List.foldl_cons, List.foldl_nil, hd.1]; omega
      · intro c hc; simp at hc; subst hc; exact hd.2
    · obtain ⟨ds, h1, h2, h3⟩ := ih (n / 10) (Nat.digitChar (n % 10) :: acc) (by omega)
      refine ⟨ds ++ [Nat.digitChar (n % 10)], by simp [h0, h1], ?_, ?_⟩
      · unfold decimalValue at h2 ⊢
        rw [List.foldl_append, h2]
        simp only [List.foldl_cons, List.foldl_nil, hd.1]; omega
      · intro c hc
        rcases List.mem_append.mp hc with hc | hc
        · exact h3 c hc
        · simp at hc; subst hc; exact hd.2

/-- The decimal rendering of a natural number reads back as the number and holds digits only. -/
theorem repr_readback (n : Nat) :
    decimalValue (Nat.repr n).data = n ∧
      ∀ c ∈ (Nat.repr n).data, 48 ≤ c.toNat ∧ c.toNat ≤ 57 := by
  obtain ⟨ds, h1, h2, h3⟩ := toDigitsCore_readback (n + 1) n [] (Nat.lt_succ_self n)
  have : (Nat.repr n).data = ds := by
    simp [Nat.repr, Nat.toDigits, h1, List.asString]
  rw [this]; exact ⟨h2, h3⟩

/-- Two integers with the same `FormatInt` rendering are equal. -/
theorem FormatInt_injective : Function.Injective FormatInt := by
  have hnat : ∀ n : Nat, (FormatInt (Int.ofNat n)).data = (Nat.repr n).data := fun n => rfl
  have hneg : ∀ n : Nat, (FormatInt (Int.negSucc n)).data = '-' :: (Nat.repr (n + 1)).data :=
    fun n => rfl
  intro a b h
  have hdata : (FormatInt a).data = (FormatInt b).data := by rw [h]
  cases a with
  | ofNat n =>
    cases b with
    | ofNat m =>
      rw [hnat, hnat] at hdata
      have := (repr_readback n).1
      rw [hdata, (repr_readback m).1] at this
      rw [this]
    | negSucc m =>
      rw [hnat, hneg] at hdata
      exact absurd ((repr_readback n).2 '-' (by rw [hdata]; exact List.mem_cons_self _ _)).1
        (by decide)
  | negSucc n =>
    cases b with
    | ofNat m =>
      rw [hnat, hneg] at hdata
      exact absurd ((repr_readback m).2 '-' (by rw [← hdata]; exact List.mem_cons_self _ _)).1
        (by decide)
    | negSucc m =>
      rw [hneg, hneg] at hdata
      have hd := List.tail_eq_of_cons_eq hdata
      have := (repr_readback (n + 1)).1
      rw [hd, (repr_readback (m + 1)).1] at this
      have : n = m := by omega
      rw [this]

/-- A `FormatInt` output is made of digits and, for a negative value, a
minus sign in front. -/
theorem FormatInt_chars (i : Int) :
    ∀ c ∈ (FormatInt i).data, (48 ≤ c.toNat ∧ c.toNat ≤ 57) ∨ c.toNat = 45 := by
  have hnat : ∀ n : Nat, (FormatInt (Int.ofNat n)).data = (Nat.repr n).data := fun n => rfl
  have hneg : ∀ n : Nat, (FormatInt (Int.negSucc n)).data = '-' :: (Nat.repr (n + 1)).data :=
    fun n => rfl
  intro c hc
  cases i with
  | ofNat n =>
    rw [hnat] at hc
    exact Or.inl ((repr_readback n).2 c hc)
  | negSucc n =>
    rw [hneg] at hc
    rcases List.mem_cons.mp hc with hc | hc
    · subst hc; exact Or.inr (by decide)
    · exact Or.inl ((repr_readback (n + 1)).2 c hc)

/-- Wrapping after each addition is wrapping the sum. -/
theorem wrapInt64_wrap_add (a b : Int) : wrapInt64 (wrapInt64 a + b) = wrapInt64 (a + b) := by
  unfold wrapInt64
  omega

/-- The key of `upload` in terms of the owner tag in words. -/
theorem assignName_eq (t : Int) (u : String) (p : List Byte) :
    assignName t u p = FormatInt (wrapInt64 (t + ownerTag u + ((p.length : Nat) : Int))) := by
  unfold assignName
  rw [wrapInt64_wrap_add, parsedUid_eq_ownerTag]

/-- The key of `upload` is made of digits and at most a minus sign. -/
theorem assignName_chars (t : Int) (u : String) (p : List Byte) :
    ∀ c ∈ (assignName t u p).data, (48 ≤ c.toNat ∧ c.toNat ≤ 57) ∨ c.toNat = 45 :=
  FormatInt_chars _

/-- The bytes of the JSON text `json.Marshal` gives for a result `OK`. -/
theorem jsonMarshalUploadResult_OK (fid : String) :
    jsonMarshalUploadResult fid "OK"
      = [123, 34, 102, 105, 100, 34, 58, 34] ++ asciiBytes fid
        ++ [34, 44, 34, 114, 101, 115, 117, 108, 116, 34, 58, 34, 79, 75, 34, 125] := by
  unfold jsonMarshalUploadResult asciiBytes
  simp only [String.data_append, List.map_append, List.append_assoc]
  rfl

/-! ### Requests without a key -/

/-- An empty query is answered with status 400 by both read handlers. -/
theorem empty_query_bad_request (env : Env) (r : Request)
    (hm : r.method = METHOD_GET) (hq : r.query = Except.ok []) :
    response (download env r).events = ⟨StatusBadRequest, [], []⟩ ∧
    response (thumbnail env r).events = ⟨StatusBadRequest, [], []⟩ := by
  simp [download, thumbnail, returned, hm, hq, response, Writer.step]

/-- C3. A GET whose query has parameters but no `fid` passes the
`len(parameters) == 0` check; `parameters["fid"][0]` then indexes an empty
slice: `download` and `thumbnail` panic before any call on the response
writer or the store, so no status 400 is sent. -/
theorem missing_fid_among_parameters_panics (env : Env) (r : Request) (parameters : Values)
    (hm : r.method = METHOD_GET) (hq : r.query = Except.ok parameters)
    (hsome : parameters.length ≠ 0) (hfid : parameters.index PARAMETER_FID = []) :
    download env r = ⟨[], Completion.panicked⟩ ∧ thumbnail env r = ⟨[], Completion.panicked⟩ := by
  simp [download, thumbnail, panicked, hm, hq, hsome, hfid]

/-- C3 at the query `uid=7`. -/
theorem missing_fid_among_parameters_panics_witness :
    download sampleEnv getWithoutFid = ⟨[], Completion.panicked⟩ ∧
    thumbnail sampleEnv getWithoutFid = ⟨[], Completion.panicked⟩ :=
  missing_fid_among_parameters_panics sampleEnv getWithoutFid [("uid", ["7"])] rfl rfl
    (by decide) (by decide)

/-! ### Session copies -/

/-- Open session copies add up over consecutive calls. -/
theorem openSessions_append (a b : List Event) :
    openSessions (a ++ b) = openSessions a + openSessions b := by
  simp only [openSessions, List.count_append, Nat.cast_add]; ring

/-- The calls of a run with calls in front. -/
theorem Outcome.after_events (e : List Event) (o : Outcome) :
    (Outcome.after e o).events = e ++ o.events := rfl

/-- Calls in front leave the way a run ends as it is. -/
theorem Outcome.after_completion (e : List Event) (o : Outcome) :
    (Outcome.after e o).completion = o.completion := rfl

/-- Deferred calls leave the way a run ends as it is. -/
theorem Outcome.deferred_completion (d : List Event) (o : Outcome) :
    (Outcome.deferred d o).completion = o.completion := by
  unfold Outcome.deferred; split <;> rfl

/-- Deferred calls are made after the calls of a run that returns or panics. -/
theorem Outcome.deferred_events (d : List Event) (o : Outcome)
    (h : o.completion ≠ Completion.unscripted) :
    (Outcome.deferred d o).events = o.events ++ d := by
  unfold Outcome.deferred; split
  · contradiction
  · rfl

/-- The wand stage of `thumbnail` takes and closes no session, and always ends. -/
theorem thumbnailWand_sessions (env : Env) (data : List Byte) :
    (thumbnailWand env data).completion ≠ Completion.unscripted ∧
    openSessions (thumbnailWand env data).events = 0 := by
  unfold thumbnailWand
  by_cases h0 : data.length = 0
  · simp [h0, Outcome.after, Outcome.deferred, returned, openSessions]
  · rcases hd : env.readImageBlob data with _ | image
    · simp [h0, Outcome.after, Outcome.deferred, returned, openSessions]
    · by_cases hw : image.width = 0
      · simp [h0, hw, Outcome.after, Outcome.deferred, panicked, openSessions]
      · by_cases ht : image.thumbnailImage DEFAULT_THUMBNAIL_WIDTH
            (thumbnailRows env.uintSize image.width image.height) = none
        · by_cases hc : image.setImageCompressionQuality DEFAULT_COMPRESS_QUALITY = none
          · by_cases hdbg : env.debug <;>
              simp [h0, hw, ht, hc, hdbg, Outcome.after, Outcome.deferred, returned, openSessions]
          · simp [h0, hw, ht, hc, Outcome.after, Outcome.deferred, returned, openSessions]
        · simp [h0, hw, ht, Outcome.after, Outcome.deferred, returned, openSessions]

/-- The read stage of `thumbnail` takes and closes no session. -/
theorem thumbnailRead_sessions (env : Env) (file : GridFile)
    (h : (thumbnailRead env file).completion ≠ Completion.unscripted) :
    openSessions (thumbnailRead env file).events = 0 := by
  have hw := thumbnailWand_sessions env (readLoop file.reads).1.flatten
  revert h
  unfold thumbnailRead
  rcases hl : (readLoop file.reads).2 with e | _ | _
  · intro _
    rw [Outcome.deferred_events _ _ (by simpa [Outcome.after] using hw.1)]
    simp only [Outcome.after_events, openSessions_append, hw.2]
    by_cases he : e = Error.EOF <;> by_cases hc : file.contentType = "" <;>
      simp [he, hc, openSessions]
  · intro _
    simp [Outcome.deferred, panicked, openSessions]
  · simp [Outcome.deferred]

/-- Where `thumbnail` returns or panics it has closed every session copy it took. -/
theorem thumbnail_sessions_balanced (env : Env) (r : Request)
    (h : (thumbnail env r).completion ≠ Completion.unscripted) :
    openSessions (thumbnail env r).events = 0 := by
  revert h
  by_cases hm : r.method = METHOD_GET
  swap
  · simp [thumbnail, hm, returned, openSessions]
  rcases hq : r.query with _ | parameters
  · simp [thumbnail, hm, hq, returned, openSessions]
  by_cases hlen : parameters.length = 0
  · simp [thumbnail, hm, hq, hlen, returned, openSessions]
  rcases hfid : parameters.index PARAMETER_FID with _ | ⟨name, _⟩
  · simp [thumbnail, hm, hq, hlen, hfid, panicked, openSessions]
  have hopen : thumbnail env r = thumbnailOpen env name := by
    simp [thumbnail, hm, hq, hlen, hfid]
  rw [hopen]
  unfold thumbnailOpen
  by_cases herr : (env.gridOpen name).2 ≠ none ∧ (env.gridOpen name).2 ≠ some Error.ErrNotFound
  · simp [herr, Outcome.after, Outcome.deferred, returned, openSessions]
  rcases hf : (env.gridOpen name).1 with _ | file
  · simp [herr, Outcome.after, Outcome.deferred, returned, openSessions]
  simp only [herr, if_false]
  intro hc
  have hc' : (thumbnailRead env file).completion ≠ Completion.unscripted := by
    simpa [Outcome.after_completion, Outcome.deferred_completion] using hc
  have hs := thumbnailRead_sessions env file hc'
  rw [Outcome.after_events, Outcome.deferred_events _ _ (by simpa [Outcome.after] using hc')]
  simp only [Outcome.after_events, openSessions_append, hs]
  simp [openSessions]

/-- `upload` never closes a session. -/
theorem upload_never_closes_session (env : Env) (r : Request) :
    Event.SessionClose ∉ (upload env r).events := by
  by_cases hm : r.method = METHOD_POST
  swap
  · simp [upload, hm, returned]
  rcases hform : r.multipartForm with _ | form
  · simp [upload, hm, hform, returned]
  rcases hfile : form.formFile PARAMETER_UPLOAD with _ | file
  · simp [upload, hm, hform, hfile, returned]
  rcases hread : file.readAll with _ | data
  · simp [upload, hm, hform, hfile, hread, returned, Outcome.deferred]
  have hup : upload env r = Outcome.deferred [Event.FormFileClose] (uploadData env r.uid data) := by
    simp [upload, hm, hform, hfile, hread]
  rw [hup]
  unfold uploadData
  by_cases hce : (env.gridCreate (assignName env.now r.uid data)).2 = none
  swap
  · simp [hce, returned, Outcome.deferred, Outcome.after]
  rcases hcf : (env.gridCreate (assignName env.now r.uid data)).1 with _ | gridFile
  · simp [hce, hcf, returned, Outcome.deferred, Outcome.after]
  simp only [hce, hcf, ne_eq, not_true_eq_false, if_false]
  unfold uploadWrite
  by_cases hwe : (gridFile.write data).2 = none
  swap
  · simp [hce, hwe, returned, Outcome.deferred, Outcome.after]
  by_cases hn : (gridFile.write data).1 = ((data.length : Nat) : Int) <;>
    by_cases hdbg : env.debug <;>
    simp [hce, hwe, hn, hdbg, returned, Outcome.deferred, Outcome.after]

/-- C7. The session copy is left open by `download` when it answers 404,
500 on an open error or 500 on a read error, and by `upload` on success: one
open copy remains after each of these returns. -/
theorem session_copy_left_open :
    ((download sampleEnv (getFid "12345")).completion = Completion.returned ∧
      (response (download sampleEnv (getFid "12345")).events).status = 404 ∧
      openSessions (download sampleEnv (getFid "12345")).events = 1) ∧
    ((download brokenEnv (getFid "12345")).completion = Completion.returned ∧
      (response (download brokenEnv (getFid "12345")).events).status = 500 ∧
      openSessions (download brokenEnv (getFid "12345")).events = 1) ∧
    ((download sampleEnv (getFid "7")).completion = Completion.returned ∧
      Event.WriteHeader 500 ∈ (download sampleEnv (getFid "7")).events ∧
      openSessions (download sampleEnv (getFid "7")).events = 1) ∧
    ((upload sampleEnv sampleUpload).completion = Completion.returned ∧
      (response (upload sampleEnv sampleUpload).events).status = 200 ∧
      openSessions (upload sampleEnv sampleUpload).events = 1) := by
  decide

/-- C10. A `thumbnail` whose second read fails with an error other than
`io.EOF` after two bytes were buffered sends status 500 and goes on: it
decodes the two buffered bytes, resizes, and writes the thumbnail as the body
of the 500 response. `download` stops at the same point, its last call being
`WriteHeader(500)`. -/
theorem thumbnail_read_error_goes_on :
    (thumbnail sampleEnv (getFid "7")).completion = Completion.returned ∧
    Event.ReadImageBlob [1, 2] ∈ (thumbnail sampleEnv (getFid "7")).events ∧
    Event.Write [9] ∈ (thumbnail sampleEnv (getFid "7")).events ∧
    response (thumbnail sampleEnv (getFid "7")).events = ⟨500, [], [9]⟩ ∧
    response (download sampleEnv (getFid "7")).events
      = ⟨200, [("Content-Md5", ""), ("Content-Length", "4")], [1, 2]⟩ ∧
    (download sampleEnv (getFid "7")).events.getLast? = some (Event.WriteHeader 500) := by
  decide

/-- Only the calls on the response writer move the writer. -/
theorem foldl_step_writerCalls (l : List Event) :
    ∀ w : Writer, l.foldl Writer.step w = (writerCalls l).foldl Writer.step w := by
  induction l with
  | nil => intro w; rfl
  | cons e l ih =>
    intro w
    cases e <;> simp [writerCalls, Writer.step, List.filter_cons] <;>
      simpa [writerCalls] using ih _

/-- The response is decided by the calls on the response writer. -/
theorem response_writerCalls (l : List Event) : response l = response (writerCalls l) := by
  have h2 : writerCalls (writerCalls l) = writerCalls l := by simp [writerCalls]
  unfold response
  rw [foldl_step_writerCalls l, foldl_step_writerCalls (writerCalls l), h2]

/-- A goroutine without calls on the response writer leaves the calls of the handler on it as they are. -/
theorem writerCalls_interleaving {a b m : List Event} (h : Interleaving a b m)
    (hb : writerCalls b = []) : writerCalls m = writerCalls a := by
  induction h with
  | nil => rfl
  | left e _ ih =>
    have := ih hb
    simp only [writerCalls, List.filter_cons] at this ⊢
    split <;> simp [this]
  | @right e a b m _ ih =>
    have hb' : writerCalls [e] = [] ∧ writerCalls b = [] := by
      have : writerCalls ([e] ++ b) = [] := by simpa using hb
      simpa [writerCalls, List.filter_append] using this
    have := ih hb'.2
    have he := hb'.1
    simp only [writerCalls, List.filter_cons] at this he ⊢
    split at he
    · simp at he
    · simp [*]

/-- The mirror writer never calls the response writer. -/
theorem toS3_no_writerCalls (env : Env) (name m : String) (data : List Byte)
    (mirror : List Event) (h : mirror <+: toS3 env name m data) : writerCalls mirror = [] := by
  have hall : ∀ e ∈ toS3 env name m data,
      (match e with
        | Event.SetHeader _ _ => true
        | Event.WriteHeader _ => true
        | Event.Write _ => true
        | _ => false) = false := by
    intro e he
    unfold toS3 at he
    split_ifs at he <;> simp at he <;> rcases he with rfl | he <;> try rfl
    all_goals (split_ifs at he <;> simp at he <;> subst he <;> rfl)
  unfold writerCalls
  rw [List.filter_eq_nil_iff]
  intro e he
  simpa using hall e (h.subset he)

/-- The handler `upload` once the payload of the request is read. -/
theorem upload_of_payload (env : Env) (r : Request) (form : MultipartForm) (file : UploadedFile)
    (p : List Byte) (hm : r.method = METHOD_POST) (hform : r.multipartForm = some form)
    (hfile : form.formFile PARAMETER_UPLOAD = Except.ok file) (hread : file.readAll = Except.ok p) :
    upload env r = Outcome.deferred [Event.FormFileClose] (uploadData env r.uid p) := by
  simp [upload, hm, hform, hfile, hread]

/-- Once the payload is read, `upload` returns on every path. -/
theorem uploadData_returns (env : Env) (uid : String) (p : List Byte) :
    (uploadData env uid p).completion = Completion.returned := by
  unfold uploadData
  rcases hc : env.gridCreate (assignName env.now uid p) with ⟨_ | g, _ | e⟩
  · simp [hc, Outcome.after, returned]
  · simp [hc, Outcome.after, returned]
  · unfold uploadWrite
    rcases hw : g.write p with ⟨n, _ | e⟩
    · by_cases hn : n = ((p.length : Nat) : Int) <;>
        simp [hc, hw, hn, Outcome.deferred, Outcome.after, returned]
    · simp [hc, hw, Outcome.deferred, Outcome.after, returned]
  · simp [hc, Outcome.after, returned]

/-- C5. A POST whose `upload` field is read as payload `p`: `upload` returns;
its response is status 200 with, as body, the bytes of the JSON object
`{"fid":"k","result":"OK"}` for the assigned key `k` (whose characters are
digits and a minus sign, each written as its own byte) exactly when the
create gives a file without error and the write gives `len(p)` without
error; otherwise it is status 500 with no body; and
the response is the same however the calls of the mirror goroutine (none, or
any it makes, whatever its put answers) fall between those of the handler. -/
theorem upload_outcome (env : Env) (r : Request) (form : MultipartForm) (file : UploadedFile)
    (p : List Byte) (hm : r.method = METHOD_POST) (hform : r.multipartForm = some form)
    (hfile : form.formFile PARAMETER_UPLOAD = Except.ok file) (hread : file.readAll = Except.ok p) :
    (upload env r).completion = Completion.returned ∧
    (response (upload env r).events
        = ⟨200, [],
            [123, 34, 102, 105, 100, 34, 58, 34]
              ++ (assignName env.now r.uid p).data.map (fun c => Fin.ofNat c.toNat)
              ++ [34, 44, 34, 114, 101, 115, 117, 108, 116, 34, 58, 34, 79, 75, 34, 125]⟩
      ↔ ∃ g, env.gridCreate (assignName env.now r.uid p) = (some g, none) ∧
          g.write p = (((p.length : Nat) : Int), none)) ∧
    (∀ c ∈ (assignName env.now r.uid p).data, (48 ≤ c.toNat ∧ c.toNat ≤ 57) ∨ c.toNat = 45) ∧
    ((¬ ∃ g, env.gridCreate (assignName env.now r.uid p) = (some g, none) ∧
          g.write p = (((p.length : Nat) : Int), none))
      → response (upload env r).events = ⟨500, [], []⟩) ∧
    (∀ (put : Bucket → String → List Byte → String → ACL → Option Error)
        (mirror merged : List Event),
      mirror <+: toS3 { env with bucketPut := put } (assignName env.now r.uid p)
          (env.detectContentType p) p →
      Interleaving (upload env r).events mirror merged →
      response merged = response (upload env r).events) := by
  have hjson : ([123, 34, 102, 105, 100, 34, 58, 34]
        ++ (assignName env.now r.uid p).data.map (fun c => Fin.ofNat c.toNat)
        ++ [34, 44, 34, 114, 101, 115, 117, 108, 116, 34, 58, 34, 79, 75, 34, 125] : List Byte)
      = jsonMarshalUploadResult (assignName env.now r.uid p) "OK" :=
    (jsonMarshalUploadResult_OK _).symm
  rw [hjson]
  refine ⟨?_, ?_, assignName_chars _ _ _, ?_, ?_⟩
  rotate_left 3
  · intro put mirror merged hpre hint
    rw [response_writerCalls merged, response_writerCalls (upload env r).events,
      writerCalls_interleaving hint (toS3_no_writerCalls _ _ _ _ _ hpre)]
  all_goals
    rw [upload_of_payload env r form file p hm hform hfile hread]
    unfold uploadData
    rcases hc : env.gridCreate (assignName env.now r.uid p) with ⟨_ | g, _ | e⟩
    · simp [hc, Outcome.deferred, Outcome.after, returned, response, Writer.step,
        StatusOK, StatusInternalServerError]
    · simp [hc, Outcome.deferred, Outcome.after, returned, response, Writer.step,
        StatusOK, StatusInternalServerError]
    · unfold uploadWrite
      rcases hw : g.write p with ⟨n, _ | e⟩
      · by_cases hn : n = ((p.length : Nat) : Int) <;> by_cases hd : env.debug <;>
          simp [hc, hw, hn, hd, Outcome.deferred, Outcome.after, returned, response, Writer.step,
            StatusOK, StatusInternalServerError]
      · simp [hc, hw, Outcome.deferred, Outcome.after, returned, response, Writer.step,
          StatusOK, StatusInternalServerError]
    · simp [hc, Outcome.deferred, Outcome.after, returned, response, Writer.step,
        StatusOK, StatusInternalServerError]

/-- One turn of the read loop on a read without error. -/
theorem readLoop_cons_none (c : List Byte) (rs : List ReadResult)
    (hc : c.length ≤ DEFAULT_BUFFER_SIZE) :
    readLoop (⟨c, none⟩ :: rs) = (c :: (readLoop rs).1, (readLoop rs).2) := by
  rw [readLoop]
  split
  · rename_i h1 h2; cases h2
  · rw [if_neg (by simpa using hc)]

/-- The read loop on chunks followed by an empty read with an error. -/
theorem readLoop_scripted (chunks : List (List Byte)) (e : Error)
    (hbuf : ∀ c ∈ chunks, c.length ≤ DEFAULT_BUFFER_SIZE) :
    readLoop (chunks.map (fun c => (⟨c, none⟩ : ReadResult)) ++ [⟨[], some e⟩])
      = (chunks, LoopEnd.broke e) := by
  induction chunks with
  | nil => simp [readLoop]
  | cons c cs ih =>
    have ih' := ih (fun d hd => hbuf d (List.mem_cons_of_mem _ hd))
    rw [List.map_cons, List.cons_append, readLoop_cons_none _ _ (hbuf c (List.mem_cons_self _ _)),
      ih']

/-- A header that was set is found, under its canonical key, with the value set. -/
theorem lookup_setHeader (h : List (String × String)) (k v : String) :
    (setHeader h k v).lookup (canonicalMIMEHeaderKey k) = some v := by
  unfold setHeader
  generalize canonicalMIMEHeaderKey k = ck
  induction h with
  | nil => simp [List.lookup]
  | cons kv t ih =>
    by_cases hk : kv.1 = ck
    · simpa [List.filter_cons, hk] using ih
    · have hk' : (ck == kv.1) = false := by simpa using fun h => hk h.symm
      simp only [List.filter_cons, hk, ne_eq, not_false_eq_true, decide_True, if_true,
        List.cons_append]
      rw [List.lookup_cons, hk']
      exact ih

/-- The writer after a run of `Write` calls. -/
theorem foldl_step_writes (chunks : List (List Byte)) :
    ∀ w : Writer, (w.sent = none ∨ w.sent = some (StatusOK, w.header)) →
      ((chunks.map Event.Write).foldl Writer.step w).header = w.header ∧
      ((chunks.map Event.Write).foldl Writer.step w).body = w.body ++ chunks.flatten ∧
      (((chunks.map Event.Write).foldl Writer.step w).sent = none ∨
        ((chunks.map Event.Write).foldl Writer.step w).sent = some (StatusOK, w.header)) := by
  induction chunks with
  | nil => intro w hw; simpa using hw
  | cons c cs ih =>
    intro w hw
    simp only [List.map_cons, List.foldl_cons]
    rcases hw with hw | hw
    · have := ih (Writer.step w (Event.Write c)) (by simp [Writer.step, hw])
      simpa [Writer.step, hw, List.append_assoc] using this
    · have := ih (Writer.step w (Event.Write c)) (by simp [Writer.step, hw])
      simpa [Writer.step, hw, List.append_assoc] using this

/-- The response to header settings followed by `Write` calls. -/
theorem response_headers_writes (headers : List Event) (chunks : List (List Byte))
    (hh : ∀ e ∈ headers, ∃ k v, e = Event.SetHeader k v) :
    response (headers ++ chunks.map Event.Write)
      = ⟨StatusOK, (headers.foldl Writer.step ⟨[], none, []⟩).header, chunks.flatten⟩ := by
  have hs : ∀ (l : List Event), (∀ e ∈ l, ∃ k v, e = Event.SetHeader k v) → ∀ w : Writer,
      (l.foldl Writer.step w).sent = w.sent ∧ (l.foldl Writer.step w).body = w.body := by
    intro l
    induction l with
    | nil => intro _ w; simp
    | cons e l ih =>
      intro hl w
      obtain ⟨k, v, rfl⟩ := hl _ (List.mem_cons_self _ _)
      have := ih (fun e he => hl e (List.mem_cons_of_mem _ he))
        (Writer.step w (Event.SetHeader k v))
      simpa [Writer.step] using this
  have h1 := hs headers hh ⟨[], none, []⟩
  have h2 := foldl_step_writes chunks (headers.foldl Writer.step ⟨[], none, []⟩)
    (Or.inl h1.1)
  unfold response
  rw [List.foldl_append]
  rcases h2 with ⟨ha, hb, hc | hc⟩
  · simp [hc, ha, hb, h1.2]
  · simp [hc, hb, h1.2]

/-- A `download` whose file reads as chunks and then `io.EOF`: it returns
with status 200, the chunks as the body, and `Content-Length` set from `Size()`. -/
theorem download_of_chunks (env : Env) (dl : Request) (k : String) (parameters : Values)
    (rest : List String) (file : GridFile) (chunks : List (List Byte))
    (hget : dl.method = METHOD_GET) (hq : dl.query = Except.ok parameters)
    (hfid : parameters.index PARAMETER_FID = k :: rest)
    (hopen : env.gridOpen k = (some file, none))
    (hreads : file.reads
      = chunks.map (fun c => (⟨c, none⟩ : ReadResult)) ++ [⟨[], some Error.EOF⟩])
    (hbuf : ∀ c ∈ chunks, c.length ≤ DEFAULT_BUFFER_SIZE) :
    (download env dl).completion = Completion.returned ∧
    (response (download env dl).events).status = StatusOK ∧
    (response (download env dl).events).body = chunks.flatten ∧
    (response (download env dl).events).header.lookup HEADER_CONTENT_LENGTH
      = some (FormatInt file.size) := by
  have hlen := Values.index_cons_length hfid
  have hloop := readLoop_scripted chunks Error.EOF hbuf
  rw [← hreads] at hloop
  have hdl : download env dl = downloadOpen env k := by
    simp [download, hget, hq, hlen, hfid]
  have hcompl : (download env dl).completion = Completion.returned := by
    rw [hdl]
    simp [downloadOpen, hopen, downloadStream, hloop, Outcome.after, Outcome.deferred, returned]
  have hcalls : writerCalls (download env dl).events
      = ([Event.SetHeader HEADER_CONTENT_MD5 file.md5]
          ++ (if file.contentType ≠ "" then [Event.SetHeader HEADER_CONTENT_TYPE file.contentType]
              else [])
          ++ [Event.SetHeader HEADER_CONTENT_LENGTH (FormatInt file.size)])
        ++ chunks.map Event.Write := by
    rw [hdl]
    by_cases hct : file.contentType = "" <;> by_cases hd : env.debug <;>
      simp [downloadOpen, hopen, downloadStream, hloop, Outcome.after, Outcome.deferred,
        returned, writerCalls, List.filter_append, hct, hd, List.filter_map, Function.comp_def]
  have hresp := response_headers_writes
    ([Event.SetHeader HEADER_CONTENT_MD5 file.md5]
      ++ (if file.contentType ≠ "" then [Event.SetHeader HEADER_CONTENT_TYPE file.contentType]
          else [])
      ++ [Event.SetHeader HEADER_CONTENT_LENGTH (FormatInt file.size)]) chunks
    (by
      intro e he
      by_cases hct : file.contentType = "" <;> simp [hct] at he <;> rcases he with he | he
      all_goals first
        | exact ⟨_, _, he⟩
        | (rcases he with he | he <;> exact ⟨_, _, he⟩))
  rw [response_writerCalls, hcalls, hresp]
  refine ⟨hcompl, rfl, rfl, ?_⟩
  simp only [List.foldl_append, List.foldl_cons, List.foldl_nil]
  exact lookup_setHeader _ HEADER_CONTENT_LENGTH _


/-- What an `upload` that answers 200 did: it created one grid file, under
the key it assigned, wrote the payload to it and nothing else, closed it,
and answered with the JSON text of that key. -/
theorem upload_ok_stores (env : Env) (r : Request) (form : MultipartForm) (file : UploadedFile)
    (p : List Byte) (hm : r.method = METHOD_POST) (hform : r.multipartForm = some form)
    (hfile : form.formFile PARAMETER_UPLOAD = Except.ok file) (hread : file.readAll = Except.ok p)
    (hok : (response (upload env r).events).status = StatusOK) :
    (response (upload env r).events).body
      = jsonMarshalUploadResult (assignName env.now r.uid p) "OK" ∧
    gridCreated (upload env r).events = [assignName env.now r.uid p] ∧
    gridWritten (upload env r).events = p ∧
    Event.GridFileClose ∈ (upload env r).events := by
  revert hok
  rw [upload_of_payload env r form file p hm hform hfile hread]
  unfold uploadData
  rcases hc : env.gridCreate (assignName env.now r.uid p) with ⟨_ | g, _ | e⟩
  · simp [hc, Outcome.deferred, Outcome.after, returned, response, Writer.step,
      StatusOK, StatusInternalServerError]
  · simp [hc, Outcome.deferred, Outcome.after, returned, response, Writer.step,
      StatusOK, StatusInternalServerError]
  · unfold uploadWrite
    rcases hw : g.write p with ⟨n, _ | e⟩
    · by_cases hn : n = ((p.length : Nat) : Int) <;> by_cases hd : env.debug <;>
        simp [hc, hw, hn, hd, Outcome.deferred, Outcome.after, returned, response, Writer.step,
          StatusOK, StatusInternalServerError, gridCreated, gridWritten]
    · simp [hc, hw, Outcome.deferred, Outcome.after, returned, response, Writer.step,
        StatusOK, StatusInternalServerError]
  · simp [hc, Outcome.deferred, Outcome.after, returned, response, Writer.step,
      StatusOK, StatusInternalServerError]

/-- C1. Let `upload` of the payload `p` answer 200, and let `k` be the key it
assigned. Then `upload` answered with the JSON text whose fid is `k`, created
its one grid file under `k` and wrote to it exactly the bytes of `p`. If the
store then opens `k` as the stored file of the written bytes, handing them
out in chunks of at most 65536 bytes and then a clean `io.EOF`, `download` of
`k` returns with status 200, a body of exactly the bytes of `p`, in order, and
the `Content-Length` header set to the decimal rendering of `len(p)`. -/
theorem upload_download_roundtrip (env : Env) (up dl : Request) (form : MultipartForm)
    (uploaded : UploadedFile) (p : List Byte) (parameters : Values) (rest : List String)
    (md5 contentType : String) (chunks : List (List Byte))
    (hpost : up.method = METHOD_POST) (hform : up.multipartForm = some form)
    (hfile : form.formFile PARAMETER_UPLOAD = Except.ok uploaded)
    (hread : uploaded.readAll = Except.ok p)
    (hok : (response (upload env up).events).status = StatusOK)
    (hget : dl.method = METHOD_GET) (hq : dl.query = Except.ok parameters)
    (hfid : parameters.index PARAMETER_FID = assignName env.now up.uid p :: rest)
    (hopen : env.gridOpen (assignName env.now up.uid p)
      = (some (storedFile md5 contentType chunks), none))
    (hbuf : ∀ c ∈ chunks, c.length ≤ DEFAULT_BUFFER_SIZE)
    (hwritten : chunks.flatten = gridWritten (upload env up).events) :
    ((response (upload env up).events).body
        = [123, 34, 102, 105, 100, 34, 58, 34] ++ asciiBytes (assignName env.now up.uid p)
          ++ [34, 44, 34, 114, 101, 115, 117, 108, 116, 34, 58, 34, 79, 75, 34, 125] ∧
      gridCreated (upload env up).events = [assignName env.now up.uid p] ∧
      gridWritten (upload env up).events = p) ∧
    (download env dl).completion = Completion.returned ∧
    (response (download env dl).events).status = StatusOK ∧
    (response (download env dl).events).body = p ∧
    (response (download env dl).events).header.lookup HEADER_CONTENT_LENGTH
      = some (FormatInt ((p.length : Nat) : Int)) := by
  obtain ⟨hbody, hcreated, hp, _⟩ := upload_ok_stores env up form uploaded p hpost hform hfile
    hread hok
  have hd := download_of_chunks env dl (assignName env.now up.uid p) parameters rest
    (storedFile md5 contentType chunks) chunks hget hq hfid hopen rfl hbuf
  rw [hp] at hwritten
  refine ⟨⟨?_, hcreated, hp⟩, hd.1, hd.2.1, ?_, ?_⟩
  · rw [hbody, jsonMarshalUploadResult_OK]
  · rw [hd.2.2.1, hwritten]
  · rw [hd.2.2.2]
    show some (FormatInt ((chunks.flatten.length : Nat) : Int)) = _
    rw [hwritten]

/-- A string with a given prefix starts with the first character of the prefix. -/
theorem HasPrefix_head {m pre : String} {c : Char} {cs : List Char} (hp : pre.data = c :: cs)
    (h : HasPrefix m pre = true) : m.data.head? = some c := by
  unfold HasPrefix at h
  rw [hp] at h
  cases hm : m.data with
  | nil => rw [hm] at h; simp [List.isPrefixOf] at h
  | cons d ds =>
    rw [hm] at h
    simp only [List.isPrefixOf, Bool.and_eq_true, beq_iff_eq] at h
    simp [h.1]

/-- No MIME type has two of the three prefixes. -/
theorem prefixes_exclusive (m : String) :
    (HasPrefix m CONTENT_TYPE_AUDIO_PREFIX = true → HasPrefix m CONTENT_TYPE_VIDEO_PREFIX = false ∧
      HasPrefix m CONTENT_TYPE_IMAGE_PREFIX = false) ∧
    (HasPrefix m CONTENT_TYPE_VIDEO_PREFIX = true → HasPrefix m CONTENT_TYPE_IMAGE_PREFIX = false) := by
  have key : ∀ (p q : String) (a b : Char) (as bs : List Char), p.data = a :: as →
      q.data = b :: bs → a ≠ b → HasPrefix m p = true → HasPrefix m q = false := by
    intro p q a b as bs hp hq hab h1
    by_contra h2
    have h2' : HasPrefix m q = true := by simpa using h2
    have e1 := HasPrefix_head hp h1
    have e2 := HasPrefix_head hq h2'
    rw [e1] at e2
    exact hab (Option.some.inj e2)
  refine ⟨fun h => ⟨?_, ?_⟩, fun h => ?_⟩
  · exact key CONTENT_TYPE_AUDIO_PREFIX CONTENT_TYPE_VIDEO_PREFIX 'a' 'v' _ _ rfl rfl (by decide) h
  · exact key CONTENT_TYPE_AUDIO_PREFIX CONTENT_TYPE_IMAGE_PREFIX 'a' 'i' _ _ rfl rfl (by decide) h
  · exact key CONTENT_TYPE_VIDEO_PREFIX CONTENT_TYPE_IMAGE_PREFIX 'v' 'i' _ _ rfl rfl (by decide) h

/-- The puts of `toS3` in terms of the three words the code compares with:
one put to the bucket of the word the MIME type begins with, none otherwise. -/
theorem toS3_puts_by_word (env : Env) (name m : String) (data : List Byte) :
    (bucketPuts (toS3 env name m data)
        = [Event.BucketPut Bucket.ImageBucket name data m ACL.PublicRead]
      ↔ HasPrefix m CONTENT_TYPE_IMAGE_PREFIX = true) ∧
    (bucketPuts (toS3 env name m data)
        = [Event.BucketPut Bucket.AudioBucket name data m ACL.PublicRead]
      ↔ HasPrefix m CONTENT_TYPE_AUDIO_PREFIX = true) ∧
    (bucketPuts (toS3 env name m data)
        = [Event.BucketPut Bucket.VideoBucket name data m ACL.PublicRead]
      ↔ HasPrefix m CONTENT_TYPE_VIDEO_PREFIX = true) ∧
    (bucketPuts (toS3 env name m data) = []
      ↔ (HasPrefix m CONTENT_TYPE_IMAGE_PREFIX = false ∧
          HasPrefix m CONTENT_TYPE_AUDIO_PREFIX = false ∧
          HasPrefix m CONTENT_TYPE_VIDEO_PREFIX = false)) ∧
    (bucketPuts (toS3 env name m data)).length ≤ 1 := by
  have hx := prefixes_exclusive m
  have hlog : ∀ (c : Prop) [Decidable c] (a b : String),
      bucketPuts (if c then [Event.Log a] else [Event.Log b]) = [] := by
    intro c _ a b; split <;> simp [bucketPuts]
  have hcons : ∀ b l, bucketPuts (Event.BucketPut b name data m ACL.PublicRead :: l)
      = Event.BucketPut b name data m ACL.PublicRead :: bucketPuts l := by
    intro b l; simp [bucketPuts]
  by_cases ha : HasPrefix m CONTENT_TYPE_AUDIO_PREFIX = true
  · have hv := (hx.1 ha).1
    have hi := (hx.1 ha).2
    simp [toS3, ha, hv, hi, hcons, hlog]
  · have ha' : HasPrefix m CONTENT_TYPE_AUDIO_PREFIX = false := by simpa using ha
    by_cases hv : HasPrefix m CONTENT_TYPE_VIDEO_PREFIX = true
    · have hi := hx.2 hv
      simp [toS3, ha', hv, hi, hcons, hlog]
    · have hv' : HasPrefix m CONTENT_TYPE_VIDEO_PREFIX = false := by simpa using hv
      by_cases hi : HasPrefix m CONTENT_TYPE_IMAGE_PREFIX = true
      · simp [toS3, ha', hv', hi, hcons, hlog]
      · have hi' : HasPrefix m CONTENT_TYPE_IMAGE_PREFIX = false := by simpa using hi
        simp [toS3, ha', hv', hi', bucketPuts]


/-- Two registered top-level types of which one, with or without its slash,
begins the other with its slash are the same. -/
theorem topLevelTypes_apart : ∀ w ∈ topLevelTypes, ∀ t ∈ topLevelTypes,
    (w.data <+: t.data ++ ['/'] ∨ t.data ++ ['/'] <+: w.data) → w = t := by
  decide

/-- A MIME type string that begins with a registered top-level type has the
slash right after it. -/
theorem mime_word_slash (m w : String) (hmime : isMIMEType m = true) (hw : w ∈ topLevelTypes) :
    HasPrefix m w = HasPrefix m (w ++ "/") := by
  have hiff : ∀ x : String, HasPrefix m x = true ↔ x.data <+: m.data := by
    intro x; unfold HasPrefix; exact List.isPrefixOf_iff_prefix
  have hslash : ∀ x : String, (x ++ "/").data = x.data ++ ['/'] := fun x => rfl
  rw [Bool.eq_iff_iff, hiff, hiff, hslash]
  constructor
  · intro h
    unfold isMIMEType at hmime
    rw [List.any_eq_true] at hmime
    obtain ⟨t, ht, hpre⟩ := hmime
    rw [hiff, hslash] at hpre
    have hwt := topLevelTypes_apart w hw t ht (List.prefix_or_prefix_of_prefix h hpre)
    rw [hwt]; exact hpre
  · intro h
    exact (List.prefix_append _ _).trans h

/-- C6. For every key, MIME type string `m` and payload, the puts of `toS3`
are one put to the image bucket exactly when `m` begins with `image/`, one to
the audio bucket exactly when it begins with `audio/`, one to the video bucket
exactly when it begins with `video/`, each with the key, payload and MIME type
unchanged and public-read visibility, and no put at all for any other `m`;
never more than one put. -/
theorem toS3_routing (env : Env) (name m : String) (data : List Byte)
    (hmime : isMIMEType m = true) :
    (bucketPuts (toS3 env name m data)
        = [Event.BucketPut Bucket.ImageBucket name data m ACL.PublicRead]
      ↔ HasPrefix m "image/" = true) ∧
    (bucketPuts (toS3 env name m data)
        = [Event.BucketPut Bucket.AudioBucket name data m ACL.PublicRead]
      ↔ HasPrefix m "audio/" = true) ∧
    (bucketPuts (toS3 env name m data)
        = [Event.BucketPut Bucket.VideoBucket name data m ACL.PublicRead]
      ↔ HasPrefix m "video/" = true) ∧
    (bucketPuts (toS3 env name m data) = []
      ↔ (HasPrefix m "image/" = false ∧ HasPrefix m "audio/" = false ∧
          HasPrefix m "video/" = false)) ∧
    (bucketPuts (toS3 env name m data)).length ≤ 1 := by
  have hi : HasPrefix m CONTENT_TYPE_IMAGE_PREFIX = HasPrefix m "image/" :=
    mime_word_slash m "image" hmime (by decide)
  have ha : HasPrefix m CONTENT_TYPE_AUDIO_PREFIX = HasPrefix m "audio/" :=
    mime_word_slash m "audio" hmime (by decide)
  have hv : HasPrefix m CONTENT_TYPE_VIDEO_PREFIX = HasPrefix m "video/" :=
    mime_word_slash m "video" hmime (by decide)
  have h := toS3_puts_by_word env name m data
  rw [hi, ha, hv] at h
  exact h

/-- C6 for the MIME type `image/png`, which `http.DetectContentType` gives for
a PNG payload: one put, to the image bucket, public-read. -/
theorem toS3_routing_witness :
    isMIMEType "image/png" = true ∧
    bucketPuts (toS3 sampleEnv "1000000045" "image/png" [137, 80, 78, 71])
      = [Event.BucketPut Bucket.ImageBucket "1000000045" [137, 80, 78, 71] "image/png"
          ACL.PublicRead] :=
  ⟨by decide,
   (toS3_routing sampleEnv "1000000045" "image/png" [137, 80, 78, 71] (by decide)).1.mpr
    (by decide)⟩

/-- C9 fails as stated: in a program built for a target whose `uint` has 32
bits, a decoded image of width 1 and height 21474837 makes the product
`orginHeight*200` wrap, and `thumbnail` asks for the height 104, which is not
`floor(H * 200 / W)` and breaks `200 * H < (h + 1) * W`. -/
theorem thumbnail_rows_overflow :
    narrowEnv.uintSize = 32 ∧
    narrowEnv.readImageBlob [3] = Except.ok tallImage ∧
    0 < tallImage.width ∧
    resizes (thumbnail narrowEnv (getFid "8")).events = [Event.ThumbnailImage 200 104] ∧
    tallImage.height * 200 / tallImage.width ≠ 104 ∧
    ¬ (200 * tallImage.height < (104 + 1) * tallImage.width) := by
  refine ⟨rfl, rfl, by decide, by decide, by decide, by decide⟩

/-- The resize calls of consecutive runs. -/
theorem resizes_append (a b : List Event) : resizes (a ++ b) = resizes a ++ resizes b := by
  simp [resizes]

/-- The wand stage on an image that decodes with a positive width: it returns after one resize call. -/
theorem thumbnailWand_resizes (env : Env) (data : List Byte) (image : Image)
    (hdata : data ≠ []) (hdec : env.readImageBlob data = Except.ok image)
    (hW : 0 < image.width) :
    (thumbnailWand env data).completion = Completion.returned ∧
    resizes (thumbnailWand env data).events
      = [Event.ThumbnailImage DEFAULT_THUMBNAIL_WIDTH (thumbnailRows env.uintSize image.width image.height)] := by
  have h0 : ¬ data.length = 0 := by
    intro h; exact hdata (List.length_eq_zero.mp h)
  have hw : ¬ image.width = 0 := by omega
  unfold thumbnailWand
  by_cases ht : image.thumbnailImage DEFAULT_THUMBNAIL_WIDTH
      (thumbnailRows env.uintSize image.width image.height) = none
  · by_cases hc : image.setImageCompressionQuality DEFAULT_COMPRESS_QUALITY = none
    · by_cases hdbg : env.debug <;>
        simp [h0, hdec, hw, ht, hc, hdbg, Outcome.after, Outcome.deferred, returned, resizes]
    · simp [h0, hdec, hw, ht, hc, Outcome.after, Outcome.deferred, returned, resizes]
  · simp [h0, hdec, hw, ht, Outcome.after, Outcome.deferred, returned, resizes]

/-- C9 as amended. For a decoded source image of width `W > 0` and height `H`
with `H * 200` inside the range of `uint` on the target (below `2 ^ 32` or
`2 ^ 64`), `thumbnail` returns (no division by zero) and its one resize call
asks for width 200 and height `h = floor(H * 200 / W)`, so that
`h * W <= 200 * H < (h + 1) * W`. -/
theorem thumbnail_dimensions (env : Env) (r : Request) (parameters : Values) (name : String)
    (rest : List String) (file : GridFile) (chunks : List (List Byte)) (e : Error)
    (image : Image)
    (hm : r.method = METHOD_GET) (hq : r.query = Except.ok parameters)
    (hfid : parameters.index PARAMETER_FID = name :: rest)
    (hopen : env.gridOpen name = (some file, none))
    (hloop : readLoop file.reads = (chunks, LoopEnd.broke e))
    (hdata : chunks.flatten ≠ [])
    (hdec : env.readImageBlob chunks.flatten = Except.ok image)
    (hW : 0 < image.width)
    (hH : image.height * DEFAULT_THUMBNAIL_WIDTH < 2 ^ env.uintSize) :
    (thumbnail env r).completion = Completion.returned ∧
    resizes (thumbnail env r).events
      = [Event.ThumbnailImage 200 (image.height * 200 / image.width)] ∧
    (image.height * 200 / image.width) * image.width ≤ 200 * image.height ∧
    200 * image.height < (image.height * 200 / image.width + 1) * image.width := by
  have hlen := Values.index_cons_length hfid
  have hth : thumbnail env r = thumbnailOpen env name := by
    simp [thumbnail, hm, hq, hlen, hfid]
  have hwand := thumbnailWand_resizes env chunks.flatten image hdata hdec hW
  have hrows : thumbnailRows env.uintSize image.width image.height
      = image.height * 200 / image.width := by
    unfold thumbnailRows wrapUint
    rw [Nat.mod_eq_of_lt hH]; rfl
  have hread : (thumbnailRead env file).completion = Completion.returned ∧
      resizes (thumbnailRead env file).events
        = [Event.ThumbnailImage 200 (image.height * 200 / image.width)] := by
    unfold thumbnailRead
    simp only [hloop]
    have hc : (Outcome.after
        ((if e ≠ Error.EOF then
            [Event.Log "[ERROR] error when read file",
              Event.WriteHeader StatusInternalServerError] else [])
          ++ [Event.SetHeader HEADER_CONTENT_MD5 file.md5]
          ++ (if file.contentType ≠ "" then
                [Event.SetHeader HEADER_CONTENT_TYPE file.contentType] else []))
        (thumbnailWand env chunks.flatten)).completion = Completion.returned := hwand.1
    refine ⟨by rw [Outcome.deferred_completion]; exact hc, ?_⟩
    rw [Outcome.deferred_events _ _ (by rw [hc]; decide)]
    simp only [Outcome.after_events, resizes_append, hwand.2, hrows]
    by_cases he : e = Error.EOF <;> by_cases hct : file.contentType = "" <;>
      simp [he, hct, resizes, DEFAULT_THUMBNAIL_WIDTH]
  refine ⟨?_, ?_, ?_, ?_⟩
  · rw [hth]; unfold thumbnailOpen
    simp [hopen, Outcome.after_completion, Outcome.deferred_completion, hread.1]
  · rw [hth]; unfold thumbnailOpen
    simp only [hopen, ne_eq, not_true_eq_false, false_and, if_false]
    have hc : (Outcome.after [Event.GridOpen name] (thumbnailRead env file)).completion
        = Completion.returned := hread.1
    simp only [Outcome.after_events]
    rw [Outcome.deferred_events _ _ (by simp [hc])]
    simp only [Outcome.after_events, resizes_append, hread.2]
    simp [resizes]
  · have := Nat.div_mul_le_self (image.height * 200) image.width
    omega
  · have := @Nat.lt_div_mul_add (image.height * 200) image.width hW
    rw [Nat.add_mul, Nat.one_mul]; omega

/-- C9 as amended, for an image of 4 by 2 pixels on a 32-bit target: the
resize is to 200 by 100. -/
theorem thumbnail_dimensions_witness :
    smallImage.height * 200 < 2 ^ narrowEnv.uintSize ∧
    resizes (thumbnail narrowEnv (getFid "9")).events = [Event.ThumbnailImage 200 100] ∧
    100 * 4 ≤ 200 * 2 ∧ 200 * 2 < (100 + 1) * 4 :=
  ⟨by decide,
   (thumbnail_dimensions narrowEnv (getFid "9") [("fid", ["9"])] "9" []
    ⟨"", "", 2, [⟨[1, 2], none⟩, ⟨[], some Error.EOF⟩]⟩ [[1, 2]] Error.EOF smallImage
    rfl rfl rfl rfl (by decide) (by decide) rfl (by decide) (by decide)).2⟩

/-! ### Key assignment -/

/-- C2 fails as stated: at epoch second 0 and with an empty payload, the uid
`9223372036854775808` (no well-formed `int64`) and the uid
`99999999999999999999x` (not numeric) both get the key `9223372036854775807`,
where the claim has the key of tag 0, which is `0`. -/
theorem key_assignment_clamps :
    Event.GridCreate "9223372036854775807"
      ∈ (upload zeroEnv (emptyUpload "9223372036854775808")).events ∧
    FormatInt (wrapInt64 (0 + claimedTag "9223372036854775808" + 0)) = "0" ∧
    FormatInt (wrapInt64 (0 + 9223372036854775808 + 0)) = "-9223372036854775808" ∧
    Event.GridCreate "9223372036854775807"
      ∈ (upload zeroEnv (emptyUpload "99999999999999999999x")).events ∧
    FormatInt (wrapInt64 (0 + claimedTag "99999999999999999999x" + 0)) = "0" := by
  decide

/-- C2 as amended. For every submission time, uid header value and payload,
the key `upload` assigns and creates the object under is the base-10 rendering
of `t + tag(u) + len(p)` in 64-bit signed arithmetic, where `tag(u)` is
`ownerTag u`: the integer value of `u` for a well-formed decimal `int64`, the
nearest `int64` bound when the digits of `u` leave the range, and 0 for an
empty or otherwise non-numeric `u`. -/
theorem upload_key_assignment (env : Env) (r : Request) (form : MultipartForm)
    (file : UploadedFile) (p : List Byte)
    (hm : r.method = METHOD_POST) (hform : r.multipartForm = some form)
    (hfile : form.formFile PARAMETER_UPLOAD = Except.ok file) (hread : file.readAll = Except.ok p) :
    assignName env.now r.uid p
      = FormatInt (wrapInt64 (env.now + ownerTag r.uid + ((p.length : Nat) : Int))) ∧
    Event.GridCreate (FormatInt (wrapInt64 (env.now + ownerTag r.uid + ((p.length : Nat) : Int))))
      ∈ (upload env r).events := by
  refine ⟨assignName_eq _ _ _, ?_⟩
  rw [← assignName_eq, upload_of_payload env r form file p hm hform hfile hread]
  have hc : (uploadData env r.uid p).completion ≠ Completion.unscripted := by
    rw [uploadData_returns]; decide
  rw [Outcome.deferred_events _ _ hc]
  simp [uploadData, Outcome.after]

/-- C2 at `t = 1000000000`, `u = 42`, `p = abc`: the key is `1000000045`. -/
theorem upload_key_assignment_witness :
    Event.GridCreate "1000000045" ∈ (upload sampleEnv sampleUpload).events :=
  (upload_key_assignment sampleEnv sampleUpload (formOf [97, 98, 99]) ⟨Except.ok [97, 98, 99]⟩
    [97, 98, 99] rfl rfl rfl rfl).2

/-! ### Key collisions -/

/-- C8 fails as stated: the tuples (1, 0, 1) and (2, 0, 0) are distinct and
get the same key. -/
theorem distinct_tuples_same_key :
    ((1 : Int), parsedUid "", ([0] : List Byte).length)
      ≠ ((2 : Int), parsedUid "", ([] : List Byte).length) ∧
    assignName 1 "" [0] = assignName 2 "" [] := by
  decide

/-- C8 as amended. Two ingestions get the same key exactly when the 64-bit
sums `t + tag + len` of their tuples are equal; identical tuples therefore
get identical keys. -/
theorem same_key_iff_same_sum (t₁ t₂ : Int) (u₁ u₂ : String) (p₁ p₂ : List Byte) :
    (assignName t₁ u₁ p₁ = assignName t₂ u₂ p₂ ↔
      wrapInt64 (t₁ + parsedUid u₁ + ((p₁.length : Nat) : Int))
        = wrapInt64 (t₂ + parsedUid u₂ + ((p₂.length : Nat) : Int))) ∧
    ((t₁, parsedUid u₁, p₁.length) = (t₂, parsedUid u₂, p₂.length) →
      assignName t₁ u₁ p₁ = assignName t₂ u₂ p₂) := by
  have hkey : ∀ (t : Int) (u : String) (p : List Byte),
      assignName t u p = FormatInt (wrapInt64 (t + parsedUid u + ((p.length : Nat) : Int))) := by
    intro t u p; unfold assignName; rw [wrapInt64_wrap_add]
  refine ⟨?_, ?_⟩
  · rw [hkey, hkey]
    exact FormatInt_injective.eq_iff
  · intro h
    simp only [Prod.mk.injEq] at h
    obtain ⟨h1, h2, h3⟩ := h
    rw [hkey, hkey, h1, h2, h3]

/-- C8 as amended, at two tuples with the same sum and at two identical tuples. -/
theorem same_key_iff_same_sum_witness :
    assignName 3 "4" [0] = assignName 4 "3" [0] ∧ assignName 5 "6" [] = assignName 5 "6" [] :=
  ⟨(same_key_iff_same_sum 3 4 "4" "3" [0] [0]).1.mpr (by decide),
   (same_key_iff_same_sum 5 5 "6" "6" [] []).2 rfl⟩

/-- C5 for the payload `abc` on a store whose create and write succeed. -/
theorem upload_outcome_witness :
    response (upload sampleEnv sampleUpload).events
      = ⟨200, [],
          [123, 34, 102, 105, 100, 34, 58, 34, 49, 48, 48, 48, 48, 48, 48, 48, 52, 53,
            34, 44, 34, 114, 101, 115, 117, 108, 116, 34, 58, 34, 79, 75, 34, 125]⟩ :=
  (upload_outcome sampleEnv sampleUpload (formOf [97, 98, 99]) ⟨Except.ok [97, 98, 99]⟩
    [97, 98, 99] rfl rfl rfl rfl).2.1.mpr ⟨⟨fun data => ((data.length : Nat), none)⟩, rfl, rfl⟩

/-- C1 for the payload `abc`, stored under `1000000045` and read back in two chunks. -/
theorem upload_download_roundtrip_witness :
    (response (upload sampleEnv sampleUpload).events).status = 200 ∧
    (response (upload sampleEnv sampleUpload).events).body
      = [123, 34, 102, 105, 100, 34, 58, 34, 49, 48, 48, 48, 48, 48, 48, 48, 52, 53,
          34, 44, 34, 114, 101, 115, 117, 108, 116, 34, 58, 34, 79, 75, 34, 125] ∧
    gridCreated (upload sampleEnv sampleUpload).events = ["1000000045"] ∧
    gridWritten (upload sampleEnv sampleUpload).events = [97, 98, 99] ∧
    (response (download sampleEnv (getFid "1000000045")).events).body = [97, 98, 99] ∧
    (response (download sampleEnv (getFid "1000000045")).events).header.lookup "Content-Length"
      = some "3" :=
  have h := upload_download_roundtrip sampleEnv sampleUpload (getFid "1000000045")
    (formOf [97, 98, 99]) ⟨Except.ok [97, 98, 99]⟩ [97, 98, 99] [("fid", ["1000000045"])] []
    "900150983cd24fb0d6963f7d28e17f72" "text/plain; charset=utf-8" [[97, 98], [99]]
    rfl rfl rfl rfl (by decide) rfl rfl rfl rfl (by decide) (by decide)
  ⟨by decide, h.1.1, h.1.2.1, h.1.2.2, h.2.2.2.1, h.2.2.2.2⟩

end gogridfs
